import Mathlib

/-!
Verification of the finanzas-personales backend/frontend against its
specification.  The Python source is shallowly embedded: SQLAlchemy rows
become Lean structures, the database session becomes an explicit `DB`
value threaded through the CRUD functions, `Decimal` amounts become `Rat`,
SQL `Date` columns become either a calendar date structure (`PyDate`, where
month arithmetic matters) or a day ordinal (`Int`, where only ordering and
day offsets matter), and fallible operations return `Option`/`Except`.
Server-assigned autoincrement ids are modelled as list-length-based where a
created row's id is needed, and are not modelled for bulk-seeded rows.
-/

namespace Finanzas

/-- TransactionType from enums.py: INCOME | EXPENSE. -/
inductive TransactionType where
  | INCOME
  | EXPENSE
deriving DecidableEq, Repr

/-- InstallmentStatus from enums.py: PENDING | PAID. -/
inductive InstallmentStatus where
  | PENDING
  | PAID
deriving DecidableEq, Repr

/-- CategoryType from enums.py: INCOME | EXPENSE. -/
inductive CategoryType where
  | INCOME
  | EXPENSE
deriving DecidableEq, Repr

/-- ServiceFrequency from enums.py. -/
inductive ServiceFrequency where
  | MONTHLY
  | ANNUAL
  | WEEKLY
  | QUARTERLY
deriving DecidableEq, Repr

/-- PaymentType from enums.py. -/
inductive PaymentType where
  | AUTO
  | MANUAL
deriving DecidableEq, Repr

/-- NotificationType from enums.py. -/
inductive NotificationType where
  | SERVICE_DUE
  | LOW_BALANCE
  | CREDIT_DUE
  | GENERAL
deriving DecidableEq, Repr

/-- A calendar date as Python's datetime.date: year, month (1-12), day (1-31).
Used where the code does calendar-month arithmetic (credit installments). -/
structure PyDate where
  year : Int
  month : Nat
  day : Nat
deriving DecidableEq, Repr

/-- models.Currency: global row, unique 3-letter code.  The code is kept as a
character list because the router upper-cases it. -/
structure Currency where
  id : Nat
  code : List Char
  name : String
  symbol : String
deriving DecidableEq, Repr

/-- models.Institution: user-owned. -/
structure Institution where
  id : Nat
  user_id : Nat
  name : String
  logo_url : Option String
deriving DecidableEq, Repr

/-- models.Product: user-owned financial product with a running balance. -/
structure Product where
  id : Nat
  user_id : Nat
  institution_id : Nat
  product_type : String
  identifier : Option String
  currency_id : Nat
  balance : Rat
  payment_due_day : Option Int
  is_active : Bool
deriving DecidableEq, Repr

/-- models.Transaction: belongs to a product; amount sign is carried by `type`.
The transaction date is a day ordinal. -/
structure Transaction where
  id : Nat
  product_id : Nat
  type : TransactionType
  transaction_date : Int
  category : String
  description : Option String
  amount : Rat
deriving DecidableEq, Repr

/-- models.Credit: an installment purchase against a product. -/
structure Credit where
  id : Nat
  product_id : Nat
  purchase_date : PyDate
  description : String
  total_amount : Rat
  total_installments : Nat
deriving DecidableEq, Repr

/-- models.Installment: one scheduled payment of a credit. -/
structure Installment where
  credit_id : Nat
  installment_number : Nat
  amount : Rat
  due_date : PyDate
  status : InstallmentStatus
deriving DecidableEq, Repr

/-- models.Category: user-owned labeling row. -/
structure Category where
  user_id : Nat
  name : String
  type : CategoryType
  emoji : String
deriving DecidableEq, Repr

/-- models.Service: user-owned recurring obligation; next_due_date is a day
ordinal. -/
structure Service where
  id : Nat
  user_id : Nat
  product_id : Option Nat
  name : String
  description : Option String
  amount : Rat
  currency_id : Nat
  frequency : ServiceFrequency
  payment_day : Nat
  payment_type : PaymentType
  is_active : Bool
  next_due_date : Int
deriving DecidableEq, Repr

/-- models.Notification: user-owned in-app message. -/
structure Notification where
  user_id : Nat
  type : NotificationType
  title : String
  message : String
  is_read : Bool
  related_service_id : Option Nat
  related_product_id : Option Nat
deriving DecidableEq, Repr

/-- The database session state: one list per table. -/
structure DB where
  currencies : List Currency
  institutions : List Institution
  products : List Product
  transactions : List Transaction
  credits : List Credit
  installments : List Installment
  categories : List Category
  services : List Service
  notifications : List Notification
deriving DecidableEq, Repr

/-! ## CRUD layer (crud.py) -/

/-- schemas.TransactionCreate. -/
structure TransactionCreate where
  type : TransactionType
  transaction_date : Int
  category : String
  description : Option String
  amount : Rat
  product_id : Nat
deriving DecidableEq, Repr

/-- Applies `f` to the first product whose id matches, as the mutation of the
row returned by query(...).filter(Product.id == product_id).first(). -/
def updateFirstProduct (f : Product → Product) (product_id : Nat) :
    List Product → List Product
  | [] => []
  | p :: ps =>
      if p.id == product_id then f p :: ps
      else p :: updateFirstProduct f product_id ps

/-- crud.update_product_balance: looks the product up by id only and adds the
amount for income, subtracts it for expense; does nothing when no product
matches. -/
def update_product_balance (db : DB) (product_id : Nat) (amount : Rat)
    (is_income : Bool) : DB :=
  { db with
      products := updateFirstProduct
        (fun p =>
          { p with
              balance :=
                if is_income then p.balance + amount else p.balance - amount })
        product_id db.products }

/-- crud.create_transaction: persists the row verbatim, then adjusts the
owning product's balance (incremented for INCOME, decremented for EXPENSE).
Returns the new session state and the persisted row. -/
def create_transaction (db : DB) (t : TransactionCreate) : DB × Transaction :=
  let row : Transaction :=
    { id := db.transactions.length + 1
      product_id := t.product_id
      type := t.type
      transaction_date := t.transaction_date
      category := t.category
      description := t.description
      amount := t.amount }
  let db1 := { db with transactions := db.transactions ++ [row] }
  let is_income := t.type == TransactionType.INCOME
  (update_product_balance db1 t.product_id t.amount is_income, row)

theorem find_updateFirstProduct (f : Product → Product) (pid : Nat)
    (hid : ∀ p, (f p).id = p.id) :
    ∀ (l : List Product) (p : Product),
      l.find? (fun q => q.id == pid) = some p →
      (updateFirstProduct f pid l).find? (fun q => q.id == pid) = some (f p) := by
  intro l
  induction l with
  | nil => intro p h; simp [List.find?] at h
  | cons q qs ih =>
      intro p h
      by_cases hq : q.id == pid
      · rw [List.find?] at h
        simp only [hq] at h
        cases h
        simp [updateFirstProduct, hq, List.find?, hid]
      · rw [List.find?] at h
        simp only [hq] at h
        simp [updateFirstProduct, hq, List.find?, ih p h]

/-- C1: for a product with starting balance B, creating a transaction of
positive amount A leaves its balance at B+A for INCOME and B−A for EXPENSE,
and the persisted transaction row carries the (positive) amount A. -/
theorem create_transaction_balance (db : DB) (t : TransactionCreate)
    (p : Product)
    (hp : db.products.find? (fun q => q.id == t.product_id) = some p)
    (hA : 0 < t.amount) :
    ((create_transaction db t).1.products.find? (fun q => q.id == t.product_id)
        = some { p with balance :=
            if t.type == TransactionType.INCOME then p.balance + t.amount
            else p.balance - t.amount })
    ∧ (create_transaction db t).1.transactions
        = db.transactions ++ [(create_transaction db t).2]
    ∧ (create_transaction db t).2.amount = t.amount
    ∧ 0 < (create_transaction db t).2.amount := by
  refine ⟨?_, ?_, rfl, hA⟩
  · have h := find_updateFirstProduct
      (fun q =>
        { q with balance :=
            if (t.type == TransactionType.INCOME) then q.balance + t.amount
            else q.balance - t.amount })
      t.product_id (fun _ => rfl) db.products p hp
    simpa only [create_transaction, update_product_balance] using h
  · simp [create_transaction, update_product_balance]

/-- The spec's own example for C1: a product at balance 1000.00 posts an
EXPENSE of 150.00 and ends at 850.00. -/
def c1Product : Product :=
  { id := 1, user_id := 1, institution_id := 1, product_type := "CHECKING_ACCOUNT"
    identifier := none, currency_id := 1, balance := 1000
    payment_due_day := none, is_active := true }

def c1DB : DB :=
  { currencies := [], institutions := [], products := [c1Product]
    transactions := [], credits := [], installments := []
    categories := [], services := [], notifications := [] }

def c1Create : TransactionCreate :=
  { type := TransactionType.EXPENSE, transaction_date := 0
    category := "Comida", description := none, amount := 150, product_id := 1 }

/-- Witness for C1 at the spec's concrete example. -/
theorem create_transaction_balance_witness :
    (create_transaction c1DB c1Create).1.products.find?
        (fun q => q.id == c1Create.product_id)
      = some { c1Product with balance := 850 } := by
  have h := create_transaction_balance c1DB c1Create c1Product (by decide)
    (by norm_num [c1Create])
  have h1 := h.1
  have hb : (1000 : Rat) - 150 = 850 := by norm_num
  simpa [c1Create, c1Product, hb] using h1

/-! ## Ownership-scoped lookups and routers (crud.py, routers/) -/

/-- crud.get_institution: filters by id AND user_id. -/
def get_institution (db : DB) (institution_id user_id : Nat) : Option Institution :=
  db.institutions.find? (fun i => i.id == institution_id && i.user_id == user_id)

/-- crud.get_institutions: all institutions of the user. -/
def get_institutions (db : DB) (user_id : Nat) : List Institution :=
  db.institutions.filter (fun i => i.user_id == user_id)

/-- crud.delete_institution: deletes the first row matching id AND user_id,
returning the new state and whether a row was deleted. -/
def delete_institution (db : DB) (institution_id user_id : Nat) : DB × Bool :=
  match db.institutions.find? (fun i => i.id == institution_id && i.user_id == user_id) with
  | none => (db, false)
  | some i => ({ db with institutions := db.institutions.erase i }, true)

/-- crud.get_product: filters by id AND user_id. -/
def get_product (db : DB) (product_id user_id : Nat) : Option Product :=
  db.products.find? (fun p => p.id == product_id && p.user_id == user_id)

/-- crud.get_products: all products of the user. -/
def get_products (db : DB) (user_id : Nat) : List Product :=
  db.products.filter (fun p => p.user_id == user_id)

/-- crud.delete_product. -/
def delete_product (db : DB) (product_id user_id : Nat) : DB × Bool :=
  match db.products.find? (fun p => p.id == product_id && p.user_id == user_id) with
  | none => (db, false)
  | some p => ({ db with products := db.products.erase p }, true)

/-- crud.get_category: filters by id AND user_id.  The embedding has no
autoincrement id on Category, so the id is matched positionally. -/
def get_category (db : DB) (index user_id : Nat) : Option Category :=
  match db.categories.get? index with
  | none => none
  | some c => if c.user_id == user_id then some c else none

/-- crud.get_categories: the user's categories, optionally filtered by type,
ordered by name. -/
def get_categories (db : DB) (user_id : Nat) (category_type : Option CategoryType) :
    List Category :=
  (db.categories.filter (fun c =>
      c.user_id == user_id &&
        match category_type with
        | none => true
        | some t => c.type == t)).insertionSort
    (fun a b => a.name ≤ b.name)

/-- routers/categories.read_category: 404 when the user-scoped lookup is
empty. -/
def read_category (db : DB) (index user_id : Nat) : Except Nat Category :=
  match get_category db index user_id with
  | none => Except.error 404
  | some c => Except.ok c

/-- crud.delete_category: deletes the row matching id AND user_id, returning
whether a row was deleted (the router turns false into a 404). -/
def delete_category (db : DB) (index user_id : Nat) : DB × Bool :=
  match get_category db index user_id with
  | none => (db, false)
  | some c => ({ db with categories := db.categories.erase c }, true)

/-- crud.get_service: filters by id AND user_id. -/
def get_service (db : DB) (service_id user_id : Nat) : Option Service :=
  db.services.find? (fun s => s.id == service_id && s.user_id == user_id)

/-- crud.get_services: the user's services, optionally filtered by active
state, ordered by next_due_date. -/
def get_services (db : DB) (user_id : Nat) (is_active : Option Bool) : List Service :=
  (db.services.filter (fun s =>
      s.user_id == user_id &&
        match is_active with
        | none => true
        | some b => s.is_active == b)).insertionSort
    (fun a b => a.next_due_date ≤ b.next_due_date)

/-- crud.delete_service. -/
def delete_service (db : DB) (service_id user_id : Nat) : DB × Bool :=
  match db.services.find? (fun s => s.id == service_id && s.user_id == user_id) with
  | none => (db, false)
  | some s => ({ db with services := db.services.erase s }, true)

/-- crud.get_transactions: filters by product id ONLY (no user scoping),
ordered newest-date-first, with skip/limit pagination. -/
def get_transactions (db : DB) (product_id skip limit : Nat) : List Transaction :=
  ((((db.transactions.filter (fun t => t.product_id == product_id)).insertionSort
      (fun a b => b.transaction_date ≤ a.transaction_date)).drop skip).take limit)

/-- routers/transactions.read_transactions: the current user is resolved for
authentication but never used to filter the query. -/
def read_transactions (db : DB) (product_id skip limit current_user : Nat) :
    List Transaction :=
  let _ := current_user
  get_transactions db product_id skip limit

/-- routers/institutions.read_institution: 404 when the filtered lookup is
empty. -/
def read_institution (db : DB) (institution_id current_user : Nat) :
    Except Nat Institution :=
  match get_institution db institution_id current_user with
  | none => Except.error 404
  | some i => Except.ok i

/-- routers/products.read_product. -/
def read_product (db : DB) (product_id current_user : Nat) : Except Nat Product :=
  match get_product db product_id current_user with
  | none => Except.error 404
  | some p => Except.ok p

/-- routers/services.read_service. -/
def read_service (db : DB) (service_id current_user : Nat) : Except Nat Service :=
  match get_service db service_id current_user with
  | none => Except.error 404
  | some s => Except.ok s

/-- crud.get_notifications is user-scoped; crud.get_notification as well.  The
embedding has no autoincrement id on Notification, so the id is positional. -/
def get_notification (db : DB) (index user_id : Nat) : Option Notification :=
  match db.notifications.get? index with
  | none => none
  | some n => if n.user_id == user_id then some n else none

/-- crud.get_notifications: the user's notifications, optionally filtered by
read state, ordered by created_at descending (reverse insertion order in the
embedding, which has no created_at column), limited (router default 50). -/
def get_notifications (db : DB) (user_id : Nat) (is_read : Option Bool)
    (limit : Nat) : List Notification :=
  ((db.notifications.filter (fun n =>
      n.user_id == user_id &&
        match is_read with
        | none => true
        | some b => n.is_read == b)).reverse).take limit

/-- routers/notifications.delete_notification relies on the user-scoped
lookup of crud.delete_notification. -/
def delete_notification (db : DB) (index user_id : Nat) : DB × Bool :=
  match get_notification db index user_id with
  | none => (db, false)
  | some n => ({ db with notifications := db.notifications.erase n }, true)

/-- Concrete state for C2: product 1 and its transaction belong to user 2. -/
def c2Product : Product :=
  { id := 1, user_id := 2, institution_id := 1, product_type := "CHECKING_ACCOUNT"
    identifier := none, currency_id := 1, balance := 0
    payment_due_day := none, is_active := true }

def c2Tx : Transaction :=
  { id := 1, product_id := 1, type := TransactionType.EXPENSE
    transaction_date := 10, category := "Comida", description := none, amount := 5 }

def c2DB : DB :=
  { currencies := [], institutions := [], products := [c2Product]
    transactions := [c2Tx], credits := [], installments := []
    categories := [], services := [], notifications := [] }

/-- Counterexample to C2: the transaction-list endpoint is in the claim's
resource list, yet user 1 calling it on user 2's product receives user 2's
transaction instead of a Not-Found result — crud.get_transactions never
filters by the caller's user id. -/
theorem read_transactions_leaks_foreign_data :
    read_transactions c2DB 1 0 100 1 = [c2Tx]
      ∧ c2Product.user_id = 2
      ∧ (∀ p ∈ c2DB.products, p.id = c2Tx.product_id → p.user_id ≠ 1) := by
  refine ⟨?_, rfl, by decide⟩
  rfl

theorem find_none_of_disowned {α : Type} (f : α → Nat) (g : α → Nat)
    (rid uid : Nat) :
    ∀ l : List α, (∀ x ∈ l, f x = rid → g x ≠ uid) →
      l.find? (fun x => f x == rid && g x == uid) = none := by
  intro l
  induction l with
  | nil => intro _; rfl
  | cons x xs ih =>
      intro h
      have hx : (f x == rid && g x == uid) = false := by
        by_cases hf : f x = rid
        · have := h x (by simp) hf
          simp [hf, this]
        · simp [hf]
      simp only [List.find?, hx]
      exact ih (fun y hy => h y (by simp [hy]))

/-- C2 as amended: the institution/product/service detail and delete
operations, the category detail and delete operations, the
institution/product/category/service/notification list operations and the
notification detail and delete operations all scope by the caller's user id,
so a resource owned by another user yields a 404-style absent result and
listings never contain another user's rows; the transaction-list-by-product
operation, however, ignores the caller entirely and returns the product's
transactions to any authenticated user. -/
theorem ownership_scoping_spec (db : DB) (rid uid : Nat)
    (hInst : ∀ i ∈ db.institutions, i.id = rid → i.user_id ≠ uid)
    (hProd : ∀ p ∈ db.products, p.id = rid → p.user_id ≠ uid)
    (hServ : ∀ s ∈ db.services, s.id = rid → s.user_id ≠ uid) :
    read_institution db rid uid = Except.error 404
    ∧ delete_institution db rid uid = (db, false)
    ∧ read_product db rid uid = Except.error 404
    ∧ delete_product db rid uid = (db, false)
    ∧ read_service db rid uid = Except.error 404
    ∧ delete_service db rid uid = (db, false)
    ∧ (∀ i ∈ get_institutions db uid, i.user_id = uid)
    ∧ (∀ p ∈ get_products db uid, p.user_id = uid)
    ∧ (∀ index, ∀ n, get_notification db index uid = some n → n.user_id = uid)
    ∧ (∀ pid skip limit u u',
        read_transactions db pid skip limit u = read_transactions db pid skip limit u')
    ∧ (∀ index, ∀ c, get_category db index uid = some c → c.user_id = uid)
    ∧ (∀ index, (∀ c, db.categories.get? index = some c → c.user_id ≠ uid) →
        read_category db index uid = Except.error 404
          ∧ delete_category db index uid = (db, false))
    ∧ (∀ ct, ∀ c ∈ get_categories db uid ct, c.user_id = uid)
    ∧ (∀ ia, ∀ s ∈ get_services db uid ia, s.user_id = uid)
    ∧ (∀ ir lim, ∀ n ∈ get_notifications db uid ir lim, n.user_id = uid)
    ∧ (∀ index, (∀ n, db.notifications.get? index = some n → n.user_id ≠ uid) →
        delete_notification db index uid = (db, false)) := by
  have hi := find_none_of_disowned (fun i : Institution => i.id)
    (fun i : Institution => i.user_id) rid uid db.institutions hInst
  have hp := find_none_of_disowned (fun p : Product => p.id)
    (fun p : Product => p.user_id) rid uid db.products hProd
  have hs := find_none_of_disowned (fun s : Service => s.id)
    (fun s : Service => s.user_id) rid uid db.services hServ
  refine ⟨?_, ?_, ?_, ?_, ?_, ?_, ?_, ?_, ?_, ?_, ?_, ?_, ?_, ?_, ?_, ?_⟩
  · simp [read_institution, get_institution, hi]
  · simp [delete_institution, hi]
  · simp [read_product, get_product, hp]
  · simp [delete_product, hp]
  · simp [read_service, get_service, hs]
  · simp [delete_service, hs]
  · intro i hiMem
    have := List.of_mem_filter hiMem
    simpa using this
  · intro p hpMem
    have := List.of_mem_filter hpMem
    simpa using this
  · intro index n hn
    simp only [get_notification] at hn
    split at hn
    · exact absurd hn (by simp)
    · split at hn
      · rename_i huid
        cases hn
        simpa using huid
      · exact absurd hn (by simp)
  · intro pid skip limit u u'
    rfl
  · intro index c hc
    simp only [get_category] at hc
    split at hc
    · exact absurd hc (by simp)
    · split at hc
      · rename_i huid
        cases hc
        simpa using huid
      · exact absurd hc (by simp)
  · intro index h
    have hnone : get_category db index uid = none := by
      simp only [get_category]
      split
      · rfl
      · rename_i c hidx
        have hne : (c.user_id == uid) = false := by
          simpa using h c hidx
        simp [hne]
    exact ⟨by simp [read_category, hnone], by simp [delete_category, hnone]⟩
  · intro ct c hcMem
    rw [get_categories, List.mem_insertionSort] at hcMem
    have := List.of_mem_filter hcMem
    simp only [Bool.and_eq_true, beq_iff_eq] at this
    exact this.1
  · intro ia s hsMem
    rw [get_services, List.mem_insertionSort] at hsMem
    have := List.of_mem_filter hsMem
    simp only [Bool.and_eq_true, beq_iff_eq] at this
    exact this.1
  · intro ir lim n hnMem
    rw [get_notifications] at hnMem
    have h1 := List.take_subset _ _ hnMem
    rw [List.mem_reverse] at h1
    have := List.of_mem_filter h1
    simp only [Bool.and_eq_true, beq_iff_eq] at this
    exact this.1
  · intro index h
    have hnone : get_notification db index uid = none := by
      simp only [get_notification]
      split
      · rfl
      · rename_i n hidx
        have hne : (n.user_id == uid) = false := by
          simpa using h n hidx
        simp [hne]
    simp [delete_notification, hnone]

/-- Witness for the amended C2 at the concrete C2 state: caller 1 owns
nothing, so every scoped operation 404s there. -/
theorem ownership_scoping_spec_witness :
    read_institution c2DB 1 1 = Except.error 404
      ∧ read_product c2DB 1 1 = Except.error 404
      ∧ delete_product c2DB 1 1 = (c2DB, false) := by
  have h := ownership_scoping_spec c2DB 1 1 (by decide) (by decide) (by decide)
  exact ⟨h.1, h.2.2.1, h.2.2.2.1⟩

/-! ## Error taxonomy (exceptions.py)

Each exception class is embedded as a constructor returning its message and
HTTP status code; the subclass chain is mirrored by calling the parent
constructor. -/

/-- exceptions.FinanzasException: base error with message and status code. -/
structure FinanzasException where
  message : String
  status_code : Nat
deriving DecidableEq, Repr

/-- exceptions.NotFoundError. -/
def NotFoundError (resource : String) (identifier : Option String) : FinanzasException :=
  match identifier with
  | some id =>
      { message := resource ++ " with id \x27" ++ id ++ "\x27 not found"
        status_code := 404 }
  | none => { message := resource ++ " not found", status_code := 404 }

/-- exceptions.ValidationError: subclasses pass their message here; 422. -/
def ValidationError (message : String) : FinanzasException :=
  { message := message, status_code := 422 }

/-- exceptions.AuthenticationError: 401. -/
def AuthenticationError (message : String) : FinanzasException :=
  { message := message, status_code := 401 }

/-- exceptions.AuthorizationError: 403. -/
def AuthorizationError (message : String) : FinanzasException :=
  { message := message, status_code := 403 }

/-- exceptions.ConflictError: 409. -/
def ConflictError (message : String) : FinanzasException :=
  { message := message, status_code := 409 }

/-- exceptions.DatabaseError: 500. -/
def DatabaseError (message : String) : FinanzasException :=
  { message := message, status_code := 500 }

/-- exceptions.BusinessLogicError: 400. -/
def BusinessLogicError (message : String) : FinanzasException :=
  { message := message, status_code := 400 }

/-- exceptions.InsufficientBalanceError, a BusinessLogicError subclass. -/
def InsufficientBalanceError (available required : Rat) : FinanzasException :=
  BusinessLogicError ("Insufficient balance. Available: " ++ toString available
    ++ ", Required: " ++ toString required)

/-- exceptions.InvalidTransactionTypeError, a ValidationError subclass. -/
def InvalidTransactionTypeError (transaction_type : String) : FinanzasException :=
  ValidationError ("Invalid transaction type: " ++ transaction_type)

/-- exceptions.InvalidProductTypeError, a ValidationError subclass. -/
def InvalidProductTypeError (product_type operation : String) : FinanzasException :=
  ValidationError ("Product type \x27" ++ product_type
    ++ "\x27 is not valid for operation: " ++ operation)

/-- exceptions.InvalidDateRangeError, a ValidationError subclass. -/
def InvalidDateRangeError (start_date end_date : String) : FinanzasException :=
  ValidationError ("Invalid date range: start_date (" ++ start_date
    ++ ") must be before end_date (" ++ end_date ++ ")")

/-- exceptions.InvalidInstallmentError, a ValidationError subclass. -/
def InvalidInstallmentError (message : String) : FinanzasException :=
  ValidationError ("Invalid installment configuration: " ++ message)

/-- exceptions.DuplicateResourceError, a ConflictError subclass. -/
def DuplicateResourceError (resource field value : String) : FinanzasException :=
  ConflictError (resource ++ " with " ++ field ++ " \x27" ++ value
    ++ "\x27 already exists")

/-- C4 counterexample: InvalidTransactionTypeError subclasses ValidationError
in exceptions.py, so it carries status 422, not the 400 the claim asserts for
the whole listed family. -/
theorem invalid_transaction_type_status_not_400 :
    (InvalidTransactionTypeError "FOO").status_code = 422
      ∧ (InvalidTransactionTypeError "FOO").status_code ≠ 400 :=
  ⟨rfl, by decide⟩

/-- C4 as amended: of the errors the claim lists, only InsufficientBalance is a
BusinessLogic error carrying 400; InvalidTransactionType, InvalidProductType,
InvalidDateRange and InvalidInstallmentConfiguration subclass ValidationError
and carry 422. -/
theorem business_error_status_codes (available required : Rat)
    (t pt op sd ed m : String) :
    (InsufficientBalanceError available required).status_code = 400
    ∧ (InvalidTransactionTypeError t).status_code = 422
    ∧ (InvalidProductTypeError pt op).status_code = 422
    ∧ (InvalidDateRangeError sd ed).status_code = 422
    ∧ (InvalidInstallmentError m).status_code = 422 :=
  ⟨rfl, rfl, rfl, rfl, rfl⟩

/-! ## Currency creation (routers/currencies.py) -/

/-- schemas.CurrencyCreate. -/
structure CurrencyCreate where
  code : List Char
  name : String
  symbol : String
deriving DecidableEq, Repr

/-- Python str.upper restricted to ASCII letters (currency codes are ASCII). -/
def pyUpperChar (c : Char) : Char :=
  if 'a' ≤ c ∧ c ≤ 'z' then Char.ofNat (c.toNat - 32) else c

def pyUpper (s : List Char) : List Char := s.map pyUpperChar

/-- crud.get_currency_by_code: exact-match lookup on the stored code. -/
def get_currency_by_code (db : DB) (code : List Char) : Option Currency :=
  db.currencies.find? (fun c => c.code == code)

/-- routers/currencies.create_currency: rejects with 400 when a currency with
the upper-cased code already exists, otherwise stores the code upper-cased. -/
def create_currency_router (db : DB) (c : CurrencyCreate) :
    DB × Except Nat Currency :=
  match get_currency_by_code db (pyUpper c.code) with
  | some _ => (db, Except.error 400)
  | none =>
      let row : Currency :=
        { id := db.currencies.length + 1, code := pyUpper c.code
          name := c.name, symbol := c.symbol }
      ({ db with currencies := db.currencies ++ [row] }, Except.ok row)

/-- C5: a create-currency request whose upper-cased code equals a stored code
fails with 400 leaving the stored currencies unchanged; otherwise the currency
is appended with its code stored in uppercase. -/
theorem create_currency_spec (db : DB) (c : CurrencyCreate) :
    ((∃ cur ∈ db.currencies, cur.code = pyUpper c.code) →
        create_currency_router db c = (db, Except.error 400))
    ∧ ((∀ cur ∈ db.currencies, cur.code ≠ pyUpper c.code) →
        ∃ row : Currency, row.code = pyUpper c.code
          ∧ (create_currency_router db c).2 = Except.ok row
          ∧ (create_currency_router db c).1.currencies = db.currencies ++ [row]) := by
  constructor
  · rintro ⟨cur, hmem, hcode⟩
    have : (db.currencies.find? (fun x => x.code == pyUpper c.code)).isSome := by
      rw [List.find?_isSome]
      exact ⟨cur, hmem, by simp [hcode]⟩
    simp only [create_currency_router, get_currency_by_code]
    cases h : db.currencies.find? (fun x => x.code == pyUpper c.code) with
    | none => rw [h] at this; simp at this
    | some _ => rfl
  · intro hall
    have hnone : db.currencies.find? (fun x => x.code == pyUpper c.code) = none := by
      rw [List.find?_eq_none]
      intro cur hmem
      simpa using hall cur hmem
    refine ⟨{ id := db.currencies.length + 1, code := pyUpper c.code
              name := c.name, symbol := c.symbol }, rfl, ?_, ?_⟩
    · simp [create_currency_router, get_currency_by_code, hnone]
    · simp [create_currency_router, get_currency_by_code, hnone]

def c5USD : Currency :=
  { id := 1, code := ['U', 'S', 'D'], name := "US Dollar", symbol := "$" }

def c5DB : DB :=
  { currencies := [c5USD], institutions := [], products := []
    transactions := [], credits := [], installments := []
    categories := [], services := [], notifications := [] }

def c5Create : CurrencyCreate :=
  { code := ['u', 's', 'd'], name := "US Dollar", symbol := "$" }

/-- Witness for C5: creating "usd" while "USD" is stored yields 400 and leaves
the table unchanged. -/
theorem create_currency_spec_witness :
    create_currency_router c5DB c5Create = (c5DB, Except.error 400) :=
  (create_currency_spec c5DB c5Create).1 ⟨c5USD, by decide, by decide⟩

/-! ## Default category seeding (crud.create_default_categories) -/

/-- The income (name, emoji) pairs from crud.create_default_categories. -/
def default_income_categories : List (String × String) :=
  [("Sueldo", "💰"), ("Freelance", "💻"), ("Inversiones", "📈"),
   ("Venta", "🛒"), ("Regalo", "🎁"), ("Bono", "🎉"), ("Otros", "💵")]

/-- The expense (name, emoji) pairs from crud.create_default_categories. -/
def default_expense_categories : List (String × String) :=
  [("Comida", "🍽️"), ("Transporte", "🚗"), ("Servicios", "💡"),
   ("Entretenimiento", "🎬"), ("Salud", "🏥"), ("Educación", "📚"),
   ("Ropa", "👕"), ("Casa", "🏠"), ("Tecnología", "📱"), ("Otros", "💸")]

/-- crud.create_default_categories: unconditionally inserts the 7 income and
10 expense rows for the user in one commit, with no existence check. -/
def create_default_categories (db : DB) (user_id : Nat) : DB :=
  { db with
      categories := db.categories
        ++ default_income_categories.map
            (fun nc => { user_id := user_id, name := nc.1
                         type := CategoryType.INCOME, emoji := nc.2 })
        ++ default_expense_categories.map
            (fun nc => { user_id := user_id, name := nc.1
                         type := CategoryType.EXPENSE, emoji := nc.2 }) }

/-- C7: one invocation appends exactly the 7 income and 10 expense rows with
the spec's (name, emoji) pairs, and a second invocation for the same user
appends them again, leaving 34 more rows for that user than before (no
deduplication). -/
theorem create_default_categories_spec (db : DB) (u : Nat) :
    (create_default_categories db u).categories = db.categories ++
      [{ user_id := u, name := "Sueldo", type := CategoryType.INCOME, emoji := "💰" },
       { user_id := u, name := "Freelance", type := CategoryType.INCOME, emoji := "💻" },
       { user_id := u, name := "Inversiones", type := CategoryType.INCOME, emoji := "📈" },
       { user_id := u, name := "Venta", type := CategoryType.INCOME, emoji := "🛒" },
       { user_id := u, name := "Regalo", type := CategoryType.INCOME, emoji := "🎁" },
       { user_id := u, name := "Bono", type := CategoryType.INCOME, emoji := "🎉" },
       { user_id := u, name := "Otros", type := CategoryType.INCOME, emoji := "💵" },
       { user_id := u, name := "Comida", type := CategoryType.EXPENSE, emoji := "🍽️" },
       { user_id := u, name := "Transporte", type := CategoryType.EXPENSE, emoji := "🚗" },
       { user_id := u, name := "Servicios", type := CategoryType.EXPENSE, emoji := "💡" },
       { user_id := u, name := "Entretenimiento", type := CategoryType.EXPENSE, emoji := "🎬" },
       { user_id := u, name := "Salud", type := CategoryType.EXPENSE, emoji := "🏥" },
       { user_id := u, name := "Educación", type := CategoryType.EXPENSE, emoji := "📚" },
       { user_id := u, name := "Ropa", type := CategoryType.EXPENSE, emoji := "👕" },
       { user_id := u, name := "Casa", type := CategoryType.EXPENSE, emoji := "🏠" },
       { user_id := u, name := "Tecnología", type := CategoryType.EXPENSE, emoji := "📱" },
       { user_id := u, name := "Otros", type := CategoryType.EXPENSE, emoji := "💸" }]
    ∧ (create_default_categories (create_default_categories db u) u).categories.countP
        (fun c => c.user_id == u)
      = db.categories.countP (fun c => c.user_id == u) + 34 := by
  constructor
  · simp [create_default_categories, default_income_categories,
      default_expense_categories]
  · simp [create_default_categories, default_income_categories,
      default_expense_categories, List.countP_append, List.countP_cons]

/-! ## Upcoming services (crud.get_upcoming_services) -/

/-- The ORDER BY next_due_date relation. -/
def svcLe (a b : Service) : Prop := a.next_due_date ≤ b.next_due_date

instance : DecidableRel svcLe := fun a b =>
  inferInstanceAs (Decidable (a.next_due_date ≤ b.next_due_date))

instance : IsTotal Service svcLe :=
  ⟨fun a b => le_total a.next_due_date b.next_due_date⟩

instance : IsTrans Service svcLe :=
  ⟨fun _ _ _ h1 h2 => le_trans h1 h2⟩

/-- crud.get_upcoming_services: the user's active services due between today
and today + days_ahead inclusive, ordered by due date ascending.  `today` is
date.today() passed explicitly; the router default for days_ahead is 7. -/
def get_upcoming_services (db : DB) (user_id : Nat) (today : Int)
    (days_ahead : Nat) : List Service :=
  (db.services.filter (fun s =>
      s.user_id == user_id && s.is_active
        && decide (s.next_due_date ≤ today + days_ahead)
        && decide (today ≤ s.next_due_date))).insertionSort svcLe

/-- C6: the upcoming-services query returns exactly the caller's active
services with next_due_date in the closed window [today, today + N], ordered
by next_due_date ascending. -/
theorem get_upcoming_services_spec (db : DB) (u : Nat) (today : Int) (N : Nat) :
    (∀ s : Service, s ∈ get_upcoming_services db u today N ↔
        s ∈ db.services ∧ s.user_id = u ∧ s.is_active = true
          ∧ today ≤ s.next_due_date ∧ s.next_due_date ≤ today + N)
    ∧ (get_upcoming_services db u today N).Sorted svcLe := by
  constructor
  · intro s
    rw [get_upcoming_services, List.mem_insertionSort, List.mem_filter]
    simp only [Bool.and_eq_true, beq_iff_eq, decide_eq_true_eq]
    tauto
  · exact List.sorted_insertionSort svcLe _

/-! ## Service-due notification (crud.create_service_due_notification) -/

/-- The interpolated SERVICE_DUE message body from
crud.create_service_due_notification. -/
def serviceDueMessage (name : String) (due : Int) (symbol : String)
    (amount : Rat) : String :=
  "Tu servicio " ++ name ++ " vence el " ++ toString due ++ ". Monto: "
    ++ symbol ++ toString amount

/-- crud.create_service_due_notification: looks the service up by id ONLY (no
user filter), then creates a SERVICE_DUE notification for the CALLING user.
The currency lookup embeds the service.currency relationship (a non-nullable
foreign key, so the inner none branch is unreachable on an integral
database). -/
def create_service_due_notification (db : DB) (service_id user_id : Nat) :
    Option (DB × Notification) :=
  match db.services.find? (fun s => s.id == service_id) with
  | none => none
  | some s =>
      match db.currencies.find? (fun c => c.id == s.currency_id) with
      | none => none
      | some cur =>
          let n : Notification :=
            { user_id := user_id
              type := NotificationType.SERVICE_DUE
              title := "Vencimiento: " ++ s.name
              message := serviceDueMessage s.name s.next_due_date cur.symbol s.amount
              is_read := false
              related_service_id := some service_id
              related_product_id := s.product_id }
          some ({ db with notifications := db.notifications ++ [n] }, n)

/-- routers/notifications.create_service_due_notification: 404 when the crud
helper reports no service. -/
def create_service_due_notification_router (db : DB) (service_id user_id : Nat) :
    Except Nat (DB × Notification) :=
  match create_service_due_notification db service_id user_id with
  | none => Except.error 404
  | some r => Except.ok r

/-- C10: on a foreign-key-integral database the endpoint 404s exactly when no
service with the given id exists at all; for any existing service — its owner
is never consulted — the caller gets a SERVICE_DUE notification created for
themselves whose message interpolates the service's name, due date, currency
symbol and amount. -/
theorem create_service_due_notification_spec (db : DB) (sid uid : Nat)
    (hFK : ∀ s ∈ db.services, ∃ c ∈ db.currencies, c.id = s.currency_id) :
    (create_service_due_notification_router db sid uid = Except.error 404 ↔
        ∀ s ∈ db.services, s.id ≠ sid)
    ∧ (∀ s : Service, db.services.find? (fun x => x.id == sid) = some s →
        ∃ cur : Currency,
          db.currencies.find? (fun c => c.id == s.currency_id) = some cur
          ∧ create_service_due_notification_router db sid uid =
              Except.ok
                ({ db with notifications := db.notifications ++
                    [{ user_id := uid
                       type := NotificationType.SERVICE_DUE
                       title := "Vencimiento: " ++ s.name
                       message := serviceDueMessage s.name s.next_due_date
                         cur.symbol s.amount
                       is_read := false
                       related_service_id := some sid
                       related_product_id := s.product_id }] },
                 { user_id := uid
                   type := NotificationType.SERVICE_DUE
                   title := "Vencimiento: " ++ s.name
                   message := serviceDueMessage s.name s.next_due_date
                     cur.symbol s.amount
                   is_read := false
                   related_service_id := some sid
                   related_product_id := s.product_id })) := by
  have hcur : ∀ s : Service, db.services.find? (fun x => x.id == sid) = some s →
      ∃ cur : Currency,
        db.currencies.find? (fun c => c.id == s.currency_id) = some cur := by
    intro s hs
    have hmem : s ∈ db.services := List.mem_of_find?_eq_some hs
    obtain ⟨c0, hc0mem, hc0⟩ := hFK s hmem
    have : (db.currencies.find? (fun c => c.id == s.currency_id)).isSome := by
      rw [List.find?_isSome]
      exact ⟨c0, hc0mem, by simp [hc0]⟩
    exact Option.isSome_iff_exists.mp this
  constructor
  · constructor
    · intro h404 s hmem hid
      have : (db.services.find? (fun x => x.id == sid)).isSome := by
        rw [List.find?_isSome]
        exact ⟨s, hmem, by simp [hid]⟩
      obtain ⟨s0, hs0⟩ := Option.isSome_iff_exists.mp this
      obtain ⟨cur, hcurEq⟩ := hcur s0 hs0
      simp [create_service_due_notification_router,
        create_service_due_notification, hs0, hcurEq] at h404
    · intro hall
      have hnone : db.services.find? (fun x => x.id == sid) = none := by
        rw [List.find?_eq_none]
        intro s hmem
        simpa using hall s hmem
      simp [create_service_due_notification_router,
        create_service_due_notification, hnone]
  · intro s hs
    obtain ⟨cur, hcurEq⟩ := hcur s hs
    refine ⟨cur, hcurEq, ?_⟩
    simp [create_service_due_notification_router,
      create_service_due_notification, hs, hcurEq]

/-- Concrete state for C10: service 1 belongs to user 2; user 1 calls the
endpoint. -/
def c10Currency : Currency :=
  { id := 1, code := ['A', 'R', 'S'], name := "Peso", symbol := "$" }

def c10Service : Service :=
  { id := 1, user_id := 2, product_id := none, name := "Luz"
    description := none, amount := 50, currency_id := 1
    frequency := ServiceFrequency.MONTHLY, payment_day := 10
    payment_type := PaymentType.MANUAL, is_active := true, next_due_date := 30 }

def c10DB : DB :=
  { currencies := [c10Currency], institutions := [], products := []
    transactions := [], credits := [], installments := []
    categories := [], services := [c10Service], notifications := [] }

/-- Witness for C10: user 1 triggers a notification for themselves about user
2's service. -/
theorem create_service_due_notification_spec_witness :
    ∃ cur : Currency,
      c10DB.currencies.find? (fun c => c.id == c10Service.currency_id) = some cur
      ∧ create_service_due_notification_router c10DB 1 1 =
          Except.ok
            ({ c10DB with notifications := c10DB.notifications ++
                [{ user_id := 1
                   type := NotificationType.SERVICE_DUE
                   title := "Vencimiento: " ++ c10Service.name
                   message := serviceDueMessage c10Service.name
                     c10Service.next_due_date cur.symbol c10Service.amount
                   is_read := false
                   related_service_id := some 1
                   related_product_id := c10Service.product_id }] },
             { user_id := 1
               type := NotificationType.SERVICE_DUE
               title := "Vencimiento: " ++ c10Service.name
               message := serviceDueMessage c10Service.name
                 c10Service.next_due_date cur.symbol c10Service.amount
               is_read := false
               related_service_id := some 1
               related_product_id := c10Service.product_id }) :=
  (create_service_due_notification_spec c10DB 1 1
      (by intro s hs; exact ⟨c10Currency, by simp [c10DB], by
        simp only [c10DB, List.mem_singleton] at hs
        simp [hs, c10Currency, c10Service]⟩)).2
    c10Service (by rfl)

/-! ## Credit installment generation (crud.create_credit_with_installments) -/

/-- Gregorian leap-year rule, as Python's calendar module. -/
def isLeapYear (y : Int) : Bool :=
  y % 4 == 0 && (y % 100 != 0 || y % 400 == 0)

/-- Days in a month, as Python's calendar.monthrange. -/
def daysInMonth (y : Int) (m : Nat) : Nat :=
  if m = 2 then (if isLeapYear y then 29 else 28)
  else if m = 4 ∨ m = 6 ∨ m = 9 ∨ m = 11 then 30
  else 31

/-- dateutil relativedelta(months=k) added to a date: month arithmetic with
the day-of-month clamped to the target month's length. -/
def addMonths (d : PyDate) (k : Nat) : PyDate :=
  let t : Nat := d.month - 1 + k
  let y : Int := d.year + (t / 12 : Nat)
  let m : Nat := t % 12 + 1
  { year := y, month := m, day := min d.day (daysInMonth y m) }

/-- datetime.date.replace(day=p): defined only for a valid day of that month,
since Python raises ValueError otherwise (the code does not normalize
overflow). -/
def replaceDay (d : PyDate) (p : Int) : Option PyDate :=
  if 1 ≤ p ∧ p ≤ (daysInMonth d.year d.month : Int) then
    some { d with day := p.toNat }
  else none

/-- `product.payment_due_day or 15`: Python `or` falls back to 15 for both
None and 0. -/
def effectiveDueDay : Option Int → Int
  | none => 15
  | some d => if d = 0 then 15 else d

/-- schemas.CreditCreate. -/
structure CreditCreate where
  purchase_date : PyDate
  description : String
  total_amount : Rat
  total_installments : Nat
  product_id : Nat
  installment_amounts : Option (List Rat)
deriving DecidableEq, Repr

/-- One iteration of the generation loop at index i: the amount is the
caller-supplied amounts[i] when a non-empty list of exactly n amounts was
given, else total/n; the due date is purchase_date advanced i+1 months with
the day overwritten to the product's effective due day. -/
def buildInstallment (c : CreditCreate) (credit_id : Nat) (pdd : Int)
    (i : Nat) : Option Installment :=
  let amount : Rat :=
    match c.installment_amounts with
    | some amts =>
        if amts ≠ [] ∧ amts.length = c.total_installments then amts.getD i 0
        else c.total_amount / (c.total_installments : Rat)
    | none => c.total_amount / (c.total_installments : Rat)
  (replaceDay (addMonths c.purchase_date (i + 1)) pdd).map (fun dd =>
    { credit_id := credit_id, installment_number := i + 1, amount := amount
      due_date := dd, status := InstallmentStatus.PENDING })

/-- The full generation loop over the given indices; a single invalid due
date makes the whole request fail, as the uncaught ValueError would. -/
def buildInstallments (c : CreditCreate) (credit_id : Nat) (pdd : Int) :
    List Nat → Option (List Installment)
  | [] => some []
  | i :: rest =>
      match buildInstallment c credit_id pdd i,
            buildInstallments c credit_id pdd rest with
      | some inst, some insts => some (inst :: insts)
      | _, _ => none

/-- crud.create_credit_with_installments.  The Python code commits the credit
row before the loop; a mid-loop date failure is modelled as overall failure
(the partially committed credit is not modelled). -/
def create_credit_with_installments (db : DB) (c : CreditCreate) :
    Option (DB × Credit × List Installment) :=
  match db.products.find? (fun p => p.id == c.product_id) with
  | none => none
  | some product =>
      let pdd := effectiveDueDay product.payment_due_day
      let credit : Credit :=
        { id := db.credits.length + 1, product_id := c.product_id
          purchase_date := c.purchase_date, description := c.description
          total_amount := c.total_amount
          total_installments := c.total_installments }
      match buildInstallments c credit.id pdd (List.range c.total_installments) with
      | none => none
      | some insts =>
          some ({ db with credits := db.credits ++ [credit],
                          installments := db.installments ++ insts },
                credit, insts)

theorem buildInstallments_spec (c : CreditCreate) (cid : Nat) (pdd : Int) :
    ∀ (l : List Nat) (insts : List Installment),
      buildInstallments c cid pdd l = some insts →
      insts.length = l.length
        ∧ ∀ j (hj : j < l.length), ∃ hj2 : j < insts.length,
            buildInstallment c cid pdd (l.get ⟨j, hj⟩)
              = some (insts.get ⟨j, hj2⟩) := by
  intro l
  induction l with
  | nil =>
      intro insts h
      simp only [buildInstallments] at h
      cases h
      exact ⟨rfl, fun j hj => absurd hj (by simp)⟩
  | cons i rest ih =>
      intro insts h
      simp only [buildInstallments] at h
      cases hbi : buildInstallment c cid pdd i with
      | none => rw [hbi] at h; simp at h
      | some inst =>
          cases hbr : buildInstallments c cid pdd rest with
          | none => rw [hbi, hbr] at h; simp at h
          | some insts0 =>
              rw [hbi, hbr] at h
              cases h
              obtain ⟨hlen, hall⟩ := ih insts0 hbr
              refine ⟨by simp [hlen], ?_⟩
              intro j hj
              cases j with
              | zero => exact ⟨by simp, by simpa using hbi⟩
              | succ j0 =>
                  have hj0 : j0 < rest.length := by simpa using hj
                  obtain ⟨hj2, he⟩ := hall j0 hj0
                  exact ⟨by simpa using hj2, by simpa using he⟩

/-- C3: for a credit with n installments, exactly n installment rows are
generated, numbered 1..n; with no caller-supplied amounts each row's amount
is total/n (the last row included, no remainder adjustment); with a supplied
list of exactly n amounts row i gets amounts[i]; row i's due date is the
purchase date advanced i+1 calendar months with the day overwritten to the
product's payment_due_day (15 when unset). -/
theorem create_credit_installments_spec (db : DB) (c : CreditCreate)
    (db2 : DB) (credit : Credit) (insts : List Installment) (p : Product)
    (hp : db.products.find? (fun q => q.id == c.product_id) = some p)
    (h : create_credit_with_installments db c = some (db2, credit, insts)) :
    insts.length = c.total_installments
    ∧ ∀ i (hi : i < c.total_installments),
        ∃ hi2 : i < insts.length,
          (insts.get ⟨i, hi2⟩).installment_number = i + 1
          ∧ (c.installment_amounts = none →
              (insts.get ⟨i, hi2⟩).amount
                = c.total_amount / (c.total_installments : Rat))
          ∧ (∀ amts, c.installment_amounts = some amts →
              amts.length = c.total_installments →
              (insts.get ⟨i, hi2⟩).amount = amts.getD i 0)
          ∧ some (insts.get ⟨i, hi2⟩).due_date
              = replaceDay (addMonths c.purchase_date (i + 1))
                  (effectiveDueDay p.payment_due_day) := by
  simp only [create_credit_with_installments, hp] at h
  cases hbuild : buildInstallments c (db.credits.length + 1)
      (effectiveDueDay p.payment_due_day) (List.range c.total_installments) with
  | none => rw [hbuild] at h; simp at h
  | some insts0 =>
      rw [hbuild] at h
      simp only [Option.some.injEq, Prod.mk.injEq] at h
      obtain ⟨-, -, rfl⟩ := h
      obtain ⟨hlen, hall⟩ := buildInstallments_spec c (db.credits.length + 1)
        (effectiveDueDay p.payment_due_day) (List.range c.total_installments)
        insts0 hbuild
      refine ⟨by simpa using hlen, ?_⟩
      intro i hi
      have hi' : i < (List.range c.total_installments).length := by simpa using hi
      obtain ⟨hi2, he⟩ := hall i hi'
      rw [List.get_range] at he
      refine ⟨hi2, ?_, ?_, ?_, ?_⟩
      · simp only [buildInstallment, Option.map_eq_some'] at he
        obtain ⟨dd, -, heq⟩ := he
        rw [← heq]
      · intro hnone
        simp only [buildInstallment, hnone, Option.map_eq_some'] at he
        obtain ⟨dd, -, heq⟩ := he
        rw [← heq]
      · intro amts hamts hlena
        have hne : amts ≠ [] := by
          intro hnil
          rw [hnil] at hlena
          simp at hlena
          omega
        simp only [buildInstallment, hamts, hne, hlena, ne_eq,
          not_false_eq_true, and_self, if_true, Option.map_eq_some'] at he
        obtain ⟨dd, -, heq⟩ := he
        rw [← heq]
      · simp only [buildInstallment, Option.map_eq_some'] at he
        obtain ⟨dd, hdd, heq⟩ := he
        rw [← heq, hdd]

def c3Product : Product :=
  { id := 1, user_id := 1, institution_id := 1, product_type := "CREDIT_CARD"
    identifier := none, currency_id := 1, balance := 0
    payment_due_day := none, is_active := true }

def c3DB : DB :=
  { currencies := [], institutions := [], products := [c3Product]
    transactions := [], credits := [], installments := []
    categories := [], services := [], notifications := [] }

def c3Create : CreditCreate :=
  { purchase_date := { year := 2024, month := 1, day := 10 }
    description := "TV", total_amount := 1200, total_installments := 2
    product_id := 1, installment_amounts := some [700, 500] }

def c3Credit : Credit :=
  { id := 1, product_id := 1
    purchase_date := { year := 2024, month := 1, day := 10 }
    description := "TV", total_amount := 1200, total_installments := 2 }

def c3Insts : List Installment :=
  [{ credit_id := 1, installment_number := 1, amount := 700
     due_date := { year := 2024, month := 2, day := 15 }
     status := InstallmentStatus.PENDING },
   { credit_id := 1, installment_number := 2, amount := 500
     due_date := { year := 2024, month := 3, day := 15 }
     status := InstallmentStatus.PENDING }]

/-- Witness for C3: a 1200.00 credit in 2 installments with caller-supplied
amounts 700.00 and 500.00 on a product with no configured due day yields the
two rows due on the 15th of the following two months. -/
theorem create_credit_installments_spec_witness :
    c3Insts.length = c3Create.total_installments :=
  (create_credit_installments_spec c3DB c3Create
    { c3DB with credits := [c3Credit], installments := c3Insts }
    c3Credit c3Insts c3Product (by decide) (by decide)).1

/-! ## Response compression round trip (optimizations.py)

compress_response_data = gzip.compress(json.dumps(data, default=str).encode())
and decompress_response_data = json.loads(gzip.decompress(bytes).decode()).
JSON-native values are embedded as `PyVal`.  A finite float crosses the JSON
boundary as its repr, the shortest decimal literal that parses back to the
same double (float(repr(f)) == f), so the embedding identifies the float
with the exact decimal value m*10^e of that literal; dumps is modelled as
writing a JSON number literal denoting exactly that decimal and loads as
the scanner of the int/frac/exp number grammar that json uses, returning an
int when fraction and exponent are absent and the decimal float otherwise.
Python strings are lists of Unicode scalar values (code points).  dumps uses
the library defaults: ensure_ascii=True (so the serialized text is pure
ASCII and the UTF-8 encode/decode steps are the identity on code units) and
separators (", ", ": ").  All byte/character sequences are `List Nat` of
code points. -/

/-- One serialized code point is an ASCII code. -/
def isDigitCode (c : Nat) : Bool := 0x30 ≤ c && c ≤ 0x39

/-- Lowercase hex digit for a nibble, as Python %04x formatting. -/
def hexDigit (k : Nat) : Nat := if k < 10 then 0x30 + k else 0x57 + k

/-- The four lowercase hex digits of m < 0x10000. -/
def hex4 (m : Nat) : List Nat :=
  [hexDigit (m / 4096 % 16), hexDigit (m / 256 % 16),
   hexDigit (m / 16 % 16), hexDigit (m % 16)]

/-- Hex digit value, accepting 0-9, a-f, A-F as json.loads does. -/
def hexVal (c : Nat) : Option Nat :=
  if 0x30 ≤ c ∧ c ≤ 0x39 then some (c - 0x30)
  else if 0x61 ≤ c ∧ c ≤ 0x66 then some (c - 0x57)
  else if 0x41 ≤ c ∧ c ≤ 0x46 then some (c - 0x37)
  else none

/-- Value of a 4-hex-digit escape. -/
def hexVal4 (a b c d : Nat) : Option Nat :=
  match hexVal a, hexVal b, hexVal c, hexVal d with
  | some va, some vb, some vc, some vd =>
      some (((va * 16 + vb) * 16 + vc) * 16 + vd)
  | _, _, _, _ => none

/-- json.dumps ensure_ascii escaping of one code point: backslash and quote
escaped, printable ASCII literal, the C0 shortcut escapes, then a uXXXX
escape — as a surrogate pair beyond the BMP. -/
def escapeCode (n : Nat) : List Nat :=
  if n = 0x5c then [0x5c, 0x5c]
  else if n = 0x22 then [0x5c, 0x22]
  else if 0x20 ≤ n ∧ n ≤ 0x7e then [n]
  else if n = 0x8 then [0x5c, 0x62]
  else if n = 0x9 then [0x5c, 0x74]
  else if n = 0xa then [0x5c, 0x6e]
  else if n = 0xc then [0x5c, 0x66]
  else if n = 0xd then [0x5c, 0x72]
  else if n < 0x10000 then 0x5c :: 0x75 :: hex4 n
  else
    (0x5c :: 0x75 :: hex4 (0xd800 + (n - 0x10000) / 0x400))
      ++ (0x5c :: 0x75 :: hex4 (0xdc00 + (n - 0x10000) % 0x400))

/-- The two-character escapes json.loads accepts after a backslash. -/
def unescapeCode (e : Nat) : Option Nat :=
  if e = 0x22 then some 0x22
  else if e = 0x5c then some 0x5c
  else if e = 0x2f then some 0x2f
  else if e = 0x62 then some 0x8
  else if e = 0x66 then some 0xc
  else if e = 0x6e then some 0xa
  else if e = 0x72 then some 0xd
  else if e = 0x74 then some 0x9
  else none

mutual
/-- json.loads string scanning after the opening quote (strict mode:
unescaped control characters are rejected). -/
def parseStr : List Nat → Option (List Nat × List Nat)
  | [] => none
  | c :: rest =>
      if c = 0x22 then some ([], rest)
      else if c = 0x5c then parseEsc rest
      else if c < 0x20 then none
      else (parseStr rest).map (fun p => (c :: p.1, p.2))
termination_by cs => (cs.length, 0)

/-- The backslash-escape cases; a \u escape with its four hex digits is
handed to `parseU`, anything else must be a two-character escape. -/
def parseEsc : List Nat → Option (List Nat × List Nat)
  | 0x75 :: a :: b :: c :: d :: rest1 => parseU (hexVal4 a b c d) rest1
  | e :: rest =>
      match unescapeCode e with
      | some u => (parseStr rest).map (fun p => (u :: p.1, p.2))
      | none => none
  | [] => none
termination_by cs => (cs.length, 1)

/-- Continues after a \uXXXX escape of value m: a high surrogate followed
by a \u low surrogate is combined into one code point, as the json.loads
scanner does; otherwise m is kept as-is (lone surrogates included). -/
def parseU : Option Nat → List Nat → Option (List Nat × List Nat)
  | none, _ => none
  | some m, 0x5c :: 0x75 :: e2 :: f2 :: g2 :: h2 :: rest2 =>
      if 0xd800 ≤ m ∧ m < 0xdc00 then
        match hexVal4 e2 f2 g2 h2 with
        | some lo =>
            if 0xdc00 ≤ lo ∧ lo < 0xe000 then
              (parseStr rest2).map (fun p =>
                ((0x10000 + (m - 0xd800) * 0x400 + (lo - 0xdc00))
                   :: p.1, p.2))
            else
              (parseStr (0x5c :: 0x75 :: e2 :: f2 :: g2 :: h2 :: rest2)).map
                (fun p => (m :: p.1, p.2))
        | none =>
            (parseStr (0x5c :: 0x75 :: e2 :: f2 :: g2 :: h2 :: rest2)).map
              (fun p => (m :: p.1, p.2))
      else
        (parseStr (0x5c :: 0x75 :: e2 :: f2 :: g2 :: h2 :: rest2)).map
          (fun p => (m :: p.1, p.2))
  | some m, rest1 => (parseStr rest1).map (fun p => (m :: p.1, p.2))
termination_by _ rest1 => (rest1.length, 2)
end

/-- Decimal digit codes of a natural number, most significant first. -/
def natDigits (n : Nat) : List Nat :=
  if n < 10 then [0x30 + n] else natDigits (n / 10) ++ [0x30 + n % 10]
termination_by n
decreasing_by simp_wf; omega

/-- repr of a Python int: optional minus sign, then decimal digits. -/
def intDigits (i : Int) : List Nat :=
  if i < 0 then 0x2d :: natDigits i.natAbs else natDigits i.natAbs

/-- Longest digit run at the head of the input. -/
def takeDigits : List Nat → List Nat × List Nat
  | [] => ([], [])
  | c :: cs =>
      if isDigitCode c then
        ((takeDigits cs).1.cons c, (takeDigits cs).2)
      else ([], c :: cs)

/-- Numeric value of a digit run. -/
def digitsVal (ds : List Nat) : Nat :=
  ds.foldl (fun acc d => acc * 10 + (d - 0x30)) 0

/-- A scanned JSON number: json.loads returns an int when the regex match
has no fraction and no exponent group, and a float otherwise. -/
inductive PyNum where
  | int (i : Int)
  | float (m e : Int)
deriving DecidableEq, Repr

/-- Sign application after an optional leading minus. -/
def intSign (neg : Bool) (n : Nat) : Int :=
  if neg then -(n : Int) else (n : Int)

/-- The optional fraction group `.digits` of the number grammar; a dot not
followed by a digit is not consumed (the regex wants at least one). -/
def parseFrac : List Nat → Option (List Nat) × List Nat
  | [] => (none, [])
  | c :: r =>
      if c = 0x2e then
        match takeDigits r with
        | ([], _) => (none, c :: r)
        | (fs, r2) => (some fs, r2)
      else (none, c :: r)

/-- The signed digit run after an exponent marker. -/
def parseExpDigits : List Nat → Option Int × List Nat
  | [] => (none, [])
  | s :: r2 =>
      if s = 0x2b then
        match takeDigits r2 with
        | ([], _) => (none, [])
        | (es, r3) => (some ((digitsVal es : Nat) : Int), r3)
      else if s = 0x2d then
        match takeDigits r2 with
        | ([], _) => (none, [])
        | (es, r3) => (some (-((digitsVal es : Nat) : Int)), r3)
      else
        match takeDigits (s :: r2) with
        | ([], _) => (none, [])
        | (es, r3) => (some ((digitsVal es : Nat) : Int), r3)

/-- The optional exponent group `[eE][+-]?digits`; a marker without digits
is not consumed. -/
def parseExp : List Nat → Option Int × List Nat
  | [] => (none, [])
  | c :: r =>
      if c = 0x65 ∨ c = 0x45 then
        match parseExpDigits r with
        | (none, _) => (none, c :: r)
        | (some v, r3) => (some v, r3)
      else (none, c :: r)

/-- Combines the sign, the integer digits and the optional groups into the
scanned number, as the scanner does with the three regex groups: an int
when fraction and exponent are both absent, else the float whose exact
decimal value is sign(intdigits ++ fracdigits) * 10 ^ (exp - len(frac)),
the value of the concatenated match text the scanner hands to float(). -/
def parseNumTail (neg : Bool) (ds r1 : List Nat) : Option (PyNum × List Nat) :=
  let fracO := (parseFrac r1).1
  let r2 := (parseFrac r1).2
  let expO := (parseExp r2).1
  let r3 := (parseExp r2).2
  if fracO = none ∧ expO = none then
    some (.int (intSign neg (digitsVal ds)), r3)
  else
    some (.float (intSign neg (digitsVal (ds ++ fracO.getD [])))
      (expO.getD 0 - ((fracO.getD []).length : Int)), r3)

/-- json.loads number scanning: the int/frac/exp grammar of its NUMBER
regex. -/
def parseNum : List Nat → Option (PyNum × List Nat)
  | [] => none
  | c :: rest =>
      if c = 0x2d then
        match takeDigits rest with
        | ([], _) => none
        | (ds, r1) => parseNumTail true ds r1
      else
        match takeDigits (c :: rest) with
        | ([], _) => none
        | (ds, r1) => parseNumTail false ds r1

/-- The JSON whitespace set skipped between tokens. -/
def skipSpaces : List Nat → List Nat
  | [] => []
  | c :: cs =>
      if c = 0x20 ∨ c = 0x9 ∨ c = 0xa ∨ c = 0xd then skipSpaces cs
      else c :: cs

/-- A JSON-native Python value: None, bool, int, float, str, list, dict.  A
finite float is identified with the exact decimal m * 10 ^ e of its
shortest round-tripping repr, the form in which it crosses the JSON text
boundary (float(repr(f)) == f, so the decimal is value-faithful); the
non-JSON Infinity/NaN extensions stay outside the JSON-native space. -/
inductive PyVal where
  | null
  | bool (b : Bool)
  | int (i : Int)
  | float (m e : Int)
  | str (s : List Nat)
  | arr (xs : List PyVal)
  | obj (kvs : List (List Nat × PyVal))
deriving Repr

/-- The value the scanner stores for a number match. -/
def pyNumVal : PyNum → PyVal
  | .int i => .int i
  | .float m e => .float m e

/-- A Python string: a list of Unicode scalar values. -/
def wfStr (s : List Nat) : Bool :=
  s.all (fun c => decide (c < 0x110000) && !(decide (0xd800 ≤ c) && decide (c < 0xe000)))

mutual
/-- Well-formed value: strings are scalar sequences and objects are dicts
(string keys, pairwise distinct). -/
def wfVal : PyVal → Bool
  | .null => true
  | .bool _ => true
  | .int _ => true
  | .float _ _ => true
  | .str s => wfStr s
  | .arr xs => wfArr xs
  | .obj kvs => wfObj kvs && distinctKeys kvs
def wfArr : List PyVal → Bool
  | [] => true
  | x :: xs => wfVal x && wfArr xs
def wfObj : List (List Nat × PyVal) → Bool
  | [] => true
  | (k, v) :: kvs => wfStr k && wfVal v && wfObj kvs
def distinctKeys : List (List Nat × PyVal) → Bool
  | [] => true
  | (k, _) :: kvs => kvs.all (fun kv => !(kv.1 == k)) && distinctKeys kvs
end

/-- Serialized string: quote, escaped code points, quote. -/
def renderStr (s : List Nat) : List Nat :=
  0x22 :: (s.flatMap escapeCode ++ [0x22])

mutual
/-- json.dumps with the default separators (", " and ": ") and
ensure_ascii=True.  A float is written by repr as the shortest decimal
literal denoting its value m * 10 ^ e; the embedding emits that decimal in
the equal-valued exponent form mantissa, marker e, exponent, a literal of
the same JSON number grammar, so the rendering stays injective exactly as
repr is on doubles. -/
def renderVal : PyVal → List Nat
  | .null => [0x6e, 0x75, 0x6c, 0x6c]
  | .bool true => [0x74, 0x72, 0x75, 0x65]
  | .bool false => [0x66, 0x61, 0x6c, 0x73, 0x65]
  | .int i => intDigits i
  | .float m e => intDigits m ++ 0x65 :: intDigits e
  | .str s => renderStr s
  | .arr xs => 0x5b :: (renderArr xs ++ [0x5d])
  | .obj kvs => 0x7b :: (renderObj kvs ++ [0x7d])
def renderArr : List PyVal → List Nat
  | [] => []
  | x :: xs => renderVal x ++ renderArrSep xs
def renderArrSep : List PyVal → List Nat
  | [] => []
  | x :: xs => 0x2c :: 0x20 :: (renderVal x ++ renderArrSep xs)
def renderObj : List (List Nat × PyVal) → List Nat
  | [] => []
  | (k, v) :: kvs =>
      renderStr k ++ 0x3a :: 0x20 :: (renderVal v ++ renderObjSep kvs)
def renderObjSep : List (List Nat × PyVal) → List Nat
  | [] => []
  | (k, v) :: kvs =>
      0x2c :: 0x20 ::
        (renderStr k ++ 0x3a :: 0x20 :: (renderVal v ++ renderObjSep kvs))
end

mutual
/-- json.loads value scanner (fuel-indexed for totality; loads supplies
ample fuel). -/
def parseVal : Nat → List Nat → Option (PyVal × List Nat)
  | 0, _ => none
  | fuel + 1, cs =>
      match skipSpaces cs with
      | 0x6e :: 0x75 :: 0x6c :: 0x6c :: r => some (.null, r)
      | 0x74 :: 0x72 :: 0x75 :: 0x65 :: r => some (.bool true, r)
      | 0x66 :: 0x61 :: 0x6c :: 0x73 :: 0x65 :: r => some (.bool false, r)
      | 0x22 :: r => (parseStr r).map (fun p => (.str p.1, p.2))
      | 0x5b :: r =>
          (match skipSpaces r with
           | [] => none
           | c2 :: r2 =>
               if c2 = 0x5d then some (.arr [], r2)
               else (parseElems fuel (c2 :: r2)).map
                 (fun p => (.arr p.1, p.2)))
      | 0x7b :: r =>
          (match skipSpaces r with
           | [] => none
           | c2 :: r2 =>
               if c2 = 0x7d then some (.obj [], r2)
               else (parseMembers fuel (c2 :: r2)).map
                 (fun p => (.obj p.1, p.2)))
      | c :: r =>
          if c = 0x2d ∨ isDigitCode c then
            (parseNum (c :: r)).map (fun p => (pyNumVal p.1, p.2))
          else none
      | [] => none
/-- One-or-more comma-separated array elements up to the closing bracket. -/
def parseElems : Nat → List Nat → Option (List PyVal × List Nat)
  | 0, _ => none
  | fuel + 1, cs =>
      match parseVal fuel cs with
      | none => none
      | some (v, r) =>
          match skipSpaces r with
          | 0x2c :: r2 => (parseElems fuel r2).map (fun p => (v :: p.1, p.2))
          | 0x5d :: r2 => some ([v], r2)
          | _ => none
/-- One-or-more comma-separated object members up to the closing brace. -/
def parseMembers : Nat → List Nat → Option (List (List Nat × PyVal) × List Nat)
  | 0, _ => none
  | fuel + 1, cs =>
      match skipSpaces cs with
      | 0x22 :: r =>
          (match parseStr r with
           | none => none
           | some (k, r1) =>
               match skipSpaces r1 with
               | 0x3a :: r2 =>
                   (match parseVal fuel r2 with
                    | none => none
                    | some (v, r3) =>
                        match skipSpaces r3 with
                        | 0x2c :: r4 =>
                            (parseMembers fuel r4).map
                              (fun p => ((k, v) :: p.1, p.2))
                        | 0x7d :: r4 => some ([(k, v)], r4)
                        | _ => none)
               | _ => none)
      | _ => none
end

/-- json.loads: skip leading whitespace, scan one value, require only
whitespace to remain. -/
def loads (cs : List Nat) : Option PyVal :=
  match parseVal (cs.length + 1) cs with
  | none => none
  | some (v, r) => if skipSpaces r = [] then some v else none

/-- Modelled from the spec: gzip.compress, the external compression library
at the repository boundary (§1 treats it as an external dependency).  Only
its losslessness contract is in scope here, so the DEFLATE bitstream is
modelled as the gzip magic bytes 1f 8b framing the payload verbatim. -/
def gzip_compress (bs : List Nat) : List Nat := 0x1f :: 0x8b :: bs

/-- Modelled from the spec: gzip.decompress, inverse of the framing above;
anything without the magic prefix fails as a BadGzipFile would. -/
def gzip_decompress : List Nat → Option (List Nat)
  | 0x1f :: 0x8b :: rest => some rest
  | _ => none

/-- optimizations.compress_response_data: JSON-serialize then compress. -/
def compress_response_data (x : PyVal) : List Nat :=
  gzip_compress (renderVal x)

/-- optimizations.decompress_response_data: decompress then JSON-parse. -/
def decompress_response_data (bs : List Nat) : Option PyVal :=
  match gzip_decompress bs with
  | none => none
  | some payload => loads payload

/-! ### Inversion lemmas: the parser undoes the serializer -/

theorem hexVal_hexDigit (k : Nat) (h : k < 16) : hexVal (hexDigit k) = some k := by
  by_cases h10 : k < 10
  · simp only [hexDigit, if_pos h10, hexVal]
    rw [if_pos (by omega)]
    congr 1
    omega
  · simp only [hexDigit, if_neg h10, hexVal]
    rw [if_neg (by omega), if_pos (by omega)]
    congr 1
    omega

theorem hexVal4_hex4 (m : Nat) (h : m < 0x10000) :
    hexVal4 (hexDigit (m / 4096 % 16)) (hexDigit (m / 256 % 16))
      (hexDigit (m / 16 % 16)) (hexDigit (m % 16)) = some m := by
  have h16 : ∀ k : Nat, k % 16 < 16 := fun k => Nat.mod_lt _ (by omega)
  simp only [hexVal4, hexVal_hexDigit _ (h16 _)]
  congr 1
  omega

theorem parseU_not_high (m : Nat) (hm : ¬(0xd800 ≤ m ∧ m < 0xdc00))
    (rest1 : List Nat) :
    parseU (some m) rest1 = (parseStr rest1).map (fun p => (m :: p.1, p.2)) := by
  rw [parseU.eq_def]
  split
  · simp_all
  · rename_i heq2
    injection heq2 with h1
    subst h1
    rw [if_neg hm]
  · rename_i heq2 heq3
    injection heq2 with h1
    subst h1
    rfl

theorem parseU_pair (m lo : Nat) (hm : 0xd800 ≤ m ∧ m < 0xdc00)
    (hlo : 0xdc00 ≤ lo ∧ lo < 0xe000) (e2 f2 g2 h2 : Nat)
    (hhex : hexVal4 e2 f2 g2 h2 = some lo) (rest2 : List Nat) :
    parseU (some m) (0x5c :: 0x75 :: e2 :: f2 :: g2 :: h2 :: rest2)
      = (parseStr rest2).map (fun p =>
          ((0x10000 + (m - 0xd800) * 0x400 + (lo - 0xdc00)) :: p.1, p.2)) := by
  rw [parseU, if_pos hm, hhex]
  simp only [if_pos hlo]

theorem parseEsc_u (a b c d : Nat) (rest1 : List Nat) :
    parseEsc (0x75 :: a :: b :: c :: d :: rest1)
      = parseU (hexVal4 a b c d) rest1 := by
  rw [parseEsc]

theorem parseStr_plain (c : Nat) (hc22 : c ≠ 0x22) (hc5c : c ≠ 0x5c)
    (hctl : ¬(c < 0x20)) (rest : List Nat) :
    parseStr (c :: rest) = (parseStr rest).map (fun p => (c :: p.1, p.2)) := by
  rw [parseStr]
  rw [if_neg hc22, if_neg hc5c, if_neg hctl]

theorem parseStr_backslash (rest : List Nat) :
    parseStr (0x5c :: rest) = parseEsc rest := by
  rw [parseStr]
  norm_num

theorem parseEsc_short (e : Nat) (he : e ≠ 0x75) (rest : List Nat) :
    parseEsc (e :: rest)
      = (match unescapeCode e with
         | some u => (parseStr rest).map (fun p => (u :: p.1, p.2))
         | none => none) := by
  rw [parseEsc.eq_def]
  split
  · simp_all
  · rename_i heq
    injection heq with h1 h2
    subst h1
    subst h2
    rfl
  · rename_i heq
    cases heq

theorem parseStr_short_escape (e u : Nat) (he : e ≠ 0x75)
    (hun : unescapeCode e = some u) (tail : List Nat) :
    parseStr (0x5c :: e :: tail)
      = (parseStr tail).map (fun p => (u :: p.1, p.2)) := by
  rw [parseStr_backslash, parseEsc_short e he, hun]

/-- Parsing one escaped scalar undoes its escaping, for any continuation. -/
theorem parseStr_escapeCode (u : Nat) (hu : u < 0x110000)
    (hs : ¬(0xd800 ≤ u ∧ u < 0xe000)) (tail : List Nat) :
    parseStr (escapeCode u ++ tail)
      = (parseStr tail).map (fun p => (u :: p.1, p.2)) := by
  have hs' : ¬(0xd800 ≤ u ∧ u < 0xdc00) := fun hc => hs ⟨hc.1, by omega⟩
  by_cases h5c : u = 0x5c
  · subst h5c
    rw [show escapeCode 0x5c = [0x5c, 0x5c] from rfl]
    exact parseStr_short_escape 0x5c 0x5c (by norm_num) rfl tail
  · by_cases h22 : u = 0x22
    · subst h22
      rw [show escapeCode 0x22 = [0x5c, 0x22] from rfl]
      exact parseStr_short_escape 0x22 0x22 (by norm_num) rfl tail
    · by_cases hpr : 0x20 ≤ u ∧ u ≤ 0x7e
      · have he : escapeCode u = [u] := by
          simp only [escapeCode, if_neg h5c, if_neg h22, if_pos hpr]
        rw [he, List.cons_append, List.nil_append,
          parseStr_plain u h22 h5c (by omega)]
      · by_cases h8 : u = 0x8
        · subst h8
          rw [show escapeCode 0x8 = [0x5c, 0x62] from rfl]
          exact parseStr_short_escape 0x62 0x8 (by norm_num) rfl tail
        · by_cases h9 : u = 0x9
          · subst h9
            rw [show escapeCode 0x9 = [0x5c, 0x74] from rfl]
            exact parseStr_short_escape 0x74 0x9 (by norm_num) rfl tail
          · by_cases ha : u = 0xa
            · subst ha
              rw [show escapeCode 0xa = [0x5c, 0x6e] from rfl]
              exact parseStr_short_escape 0x6e 0xa (by norm_num) rfl tail
            · by_cases hc : u = 0xc
              · subst hc
                rw [show escapeCode 0xc = [0x5c, 0x66] from rfl]
                exact parseStr_short_escape 0x66 0xc (by norm_num) rfl tail
              · by_cases hd : u = 0xd
                · subst hd
                  rw [show escapeCode 0xd = [0x5c, 0x72] from rfl]
                  exact parseStr_short_escape 0x72 0xd (by norm_num) rfl tail
                · by_cases hbmp : u < 0x10000
                  · have he : escapeCode u = 0x5c :: 0x75 :: hex4 u := by
                      simp only [escapeCode, if_neg h5c, if_neg h22,
                        if_neg hpr, if_neg h8, if_neg h9, if_neg ha,
                        if_neg hc, if_neg hd, if_pos hbmp]
                    rw [he]
                    simp only [hex4, List.cons_append, List.nil_append]
                    rw [parseStr_backslash, parseEsc_u, hexVal4_hex4 u hbmp,
                      parseU_not_high u hs']
                  · have he : escapeCode u
                        = 0x5c :: 0x75 :: (hex4 (0xd800 + (u - 0x10000) / 0x400)
                          ++ (0x5c :: 0x75 :: hex4 (0xdc00 + (u - 0x10000) % 0x400))) := by
                      simp only [escapeCode, if_neg h5c, if_neg h22,
                        if_neg hpr, if_neg h8, if_neg h9, if_neg ha,
                        if_neg hc, if_neg hd, if_neg hbmp]
                      rfl
                    have hhi : 0xd800 + (u - 0x10000) / 0x400 < 0x10000 := by omega
                    have hlo : 0xdc00 + (u - 0x10000) % 0x400 < 0x10000 := by
                      have := Nat.mod_lt (u - 0x10000) (y := 0x400) (by omega)
                      omega
                    rw [he]
                    simp only [hex4, List.cons_append, List.append_assoc,
                      List.nil_append]
                    rw [parseStr_backslash, parseEsc_u, hexVal4_hex4 _ hhi]
                    rw [parseU_pair _ (0xdc00 + (u - 0x10000) % 0x400)
                      (by constructor <;> omega)
                      (by
                        have := Nat.mod_lt (u - 0x10000) (y := 0x400) (by omega)
                        constructor <;> omega)
                      _ _ _ _ (hexVal4_hex4 _ hlo)]
                    have hval : 0x10000
                        + (0xd800 + (u - 0x10000) / 0x400 - 0xd800) * 0x400
                        + (0xdc00 + (u - 0x10000) % 0x400 - 0xdc00) = u := by
                      have h1 : 0xd800 + (u - 0x10000) / 0x400 - 0xd800
                          = (u - 0x10000) / 0x400 := by omega
                      have h2 : 0xdc00 + (u - 0x10000) % 0x400 - 0xdc00
                          = (u - 0x10000) % 0x400 := by omega
                      rw [h1, h2]
                      omega
                    rw [hval]

/-- Parsing a rendered string body recovers the original scalars. -/
theorem parseStr_render (s : List Nat) (hs : wfStr s = true) (tail : List Nat) :
    parseStr (s.flatMap escapeCode ++ 0x22 :: tail) = some (s, tail) := by
  induction s with
  | nil =>
      rw [List.flatMap_nil, List.nil_append, parseStr]
      norm_num
  | cons u s' ih =>
      simp only [wfStr, List.all_cons, Bool.and_eq_true, decide_eq_true_eq,
        Bool.not_eq_true', Bool.and_eq_false_iff, decide_eq_false_iff_not] at hs
      have hu : u < 0x110000 := hs.1.1
      have hsur : ¬(0xd800 ≤ u ∧ u < 0xe000) := by
        rcases hs.1.2 with h | h
        · intro hc; exact h hc.1
        · intro hc; exact h hc.2
      rw [List.flatMap_cons, List.append_assoc,
        parseStr_escapeCode u hu hsur]
      rw [ih (by simpa [wfStr] using hs.2)]
      rfl

/-- A continuation that cannot extend a number match: empty, or headed by
none of digit, dot and exponent marker.  Every separator the serializer
emits after a number qualifies. -/
def numStop : List Nat → Bool
  | [] => true
  | c :: _ => !(isDigitCode c || c == 0x2e || c == 0x65 || c == 0x45)

theorem natDigits_ne_nil (n : Nat) : natDigits n ≠ [] := by
  rw [natDigits]
  split
  · simp
  · simp

theorem natDigits_digits (n : Nat) : ∀ c ∈ natDigits n, isDigitCode c = true := by
  induction n using Nat.strongRecOn with
  | _ n ih =>
      rw [natDigits]
      split
      · intro c hc
        rw [List.mem_singleton] at hc
        subst hc
        simp only [isDigitCode, Bool.and_eq_true, decide_eq_true_eq]
        omega
      · intro c hc
        rw [List.mem_append] at hc
        rcases hc with h | h
        · exact ih (n / 10) (by omega) c h
        · rw [List.mem_singleton] at h
          subst h
          simp only [isDigitCode, Bool.and_eq_true, decide_eq_true_eq]
          have := Nat.mod_lt n (y := 10) (by omega)
          omega

theorem natDigits_cons (n : Nat) :
    ∃ c t, natDigits n = c :: t ∧ isDigitCode c = true := by
  cases h : natDigits n with
  | nil => exact absurd h (natDigits_ne_nil n)
  | cons c t =>
      exact ⟨c, t, rfl, natDigits_digits n c (h ▸ List.mem_cons_self c t)⟩

theorem digitsVal_natDigits (n : Nat) : digitsVal (natDigits n) = n := by
  induction n using Nat.strongRecOn with
  | _ n ih =>
      rw [natDigits]
      split
      · rename_i h
        simp only [digitsVal, List.foldl_cons, List.foldl_nil]
        omega
      · rename_i h
        have hstep : digitsVal (natDigits (n / 10) ++ [0x30 + n % 10])
            = digitsVal (natDigits (n / 10)) * 10 + (0x30 + n % 10 - 0x30) := by
          simp [digitsVal, List.foldl_append]
        rw [hstep, ih (n / 10) (by omega)]
        omega

theorem takeDigits_no_digit (cs : List Nat) (h : numStop cs = true) :
    takeDigits cs = ([], cs) := by
  cases cs with
  | nil => rfl
  | cons c t =>
      have hd : isDigitCode c = false := by
        cases hdc : isDigitCode c
        · rfl
        · rw [numStop, hdc] at h
          simp at h
      simp [takeDigits, hd]

theorem takeDigits_cons_not (c : Nat) (h : isDigitCode c = false) (t : List Nat) :
    takeDigits (c :: t) = ([], c :: t) := by
  simp [takeDigits, h]

theorem takeDigits_run (ds : List Nat) (hds : ∀ c ∈ ds, isDigitCode c = true) :
    ∀ rest : List Nat, takeDigits rest = ([], rest) →
      takeDigits (ds ++ rest) = (ds, rest) := by
  induction ds with
  | nil => intro rest hrest; simpa using hrest
  | cons c t ih =>
      intro rest hrest
      have hc := hds c (List.mem_cons_self c t)
      have ht := ih (fun x hx => hds x (List.mem_cons_of_mem c hx)) rest hrest
      simp [takeDigits, hc, ht]

theorem isDigitCode_ne_minus {c : Nat} (h : isDigitCode c = true) : c ≠ 0x2d := by
  simp only [isDigitCode, Bool.and_eq_true, decide_eq_true_eq] at h
  omega

theorem parseFrac_stop (cs : List Nat) (h : numStop cs = true) :
    parseFrac cs = (none, cs) := by
  cases cs with
  | nil => rfl
  | cons c t =>
      have hne : c ≠ 0x2e := by
        intro hc
        subst hc
        simp [numStop, isDigitCode] at h
      rw [parseFrac, if_neg hne]

theorem parseExp_stop (cs : List Nat) (h : numStop cs = true) :
    parseExp cs = (none, cs) := by
  cases cs with
  | nil => rfl
  | cons c t =>
      have hne : ¬(c = 0x65 ∨ c = 0x45) := by
        rintro (hc | hc) <;> (subst hc; simp [numStop, isDigitCode] at h)
      rw [parseExp, if_neg hne]

theorem parseNumTail_stop (neg : Bool) (ds r1 : List Nat)
    (h : numStop r1 = true) :
    parseNumTail neg ds r1 = some (.int (intSign neg (digitsVal ds)), r1) := by
  simp [parseNumTail, parseFrac_stop r1 h, parseExp_stop r1 h]

/-- The exponent digit run parses back to its value whenever the
continuation cannot extend it. -/
theorem parseExpDigits_intDigits (e : Int) (rest : List Nat)
    (hrest : numStop rest = true) :
    parseExpDigits (intDigits e ++ rest) = (some e, rest) := by
  have hstop := takeDigits_no_digit rest hrest
  by_cases hneg : e < 0
  · rw [intDigits, if_pos hneg, List.cons_append, parseExpDigits]
    rw [if_neg (by norm_num), if_pos rfl]
    rw [takeDigits_run _ (natDigits_digits _) rest hstop]
    cases h0 : natDigits e.natAbs with
    | nil => exact absurd h0 (natDigits_ne_nil _)
    | cons c0 t0 =>
        show ((some (-((digitsVal (c0 :: t0) : Nat) : Int)) : Option Int), rest)
          = (some e, rest)
        rw [← h0, digitsVal_natDigits]
        have hval : -(e.natAbs : Int) = e := by omega
        rw [hval]
  · obtain ⟨c0, t0, h0, hc0⟩ := natDigits_cons e.natAbs
    have hb : 0x30 ≤ c0 ∧ c0 ≤ 0x39 := by
      simpa [isDigitCode] using hc0
    rw [intDigits, if_neg hneg, h0, List.cons_append, parseExpDigits]
    rw [if_neg (by omega), if_neg (by omega)]
    have hrun : takeDigits (c0 :: (t0 ++ rest)) = (c0 :: t0, rest) := by
      have := takeDigits_run (c0 :: t0)
        (by rw [← h0]; exact natDigits_digits _) rest hstop
      rwa [List.cons_append] at this
    rw [hrun]
    show ((some ((digitsVal (c0 :: t0) : Nat) : Int) : Option Int), rest)
      = (some e, rest)
    rw [← h0, digitsVal_natDigits]
    have hval : (e.natAbs : Int) = e := by omega
    rw [hval]

theorem parseExp_marker (e : Int) (rest : List Nat)
    (hrest : numStop rest = true) :
    parseExp (0x65 :: (intDigits e ++ rest)) = (some e, rest) := by
  rw [parseExp, if_pos (Or.inl rfl), parseExpDigits_intDigits e rest hrest]

theorem parseNumTail_exp (neg : Bool) (ds : List Nat) (e : Int)
    (rest : List Nat) (hrest : numStop rest = true) :
    parseNumTail neg ds (0x65 :: (intDigits e ++ rest))
      = some (.float (intSign neg (digitsVal ds)) e, rest) := by
  have hfrac : parseFrac (0x65 :: (intDigits e ++ rest))
      = (none, 0x65 :: (intDigits e ++ rest)) := by
    rw [parseFrac, if_neg (by norm_num)]
  simp [parseNumTail, hfrac, parseExp_marker e rest hrest]

/-- Parsing a rendered integer recovers it whenever the continuation cannot
extend the number match. -/
theorem parseNum_intDigits (i : Int) (rest : List Nat)
    (hrest : numStop rest = true) :
    parseNum (intDigits i ++ rest) = some (.int i, rest) := by
  have hstop := takeDigits_no_digit rest hrest
  by_cases hneg : i < 0
  · rw [intDigits, if_pos hneg, List.cons_append, parseNum]
    rw [if_pos rfl]
    rw [takeDigits_run _ (natDigits_digits _) rest hstop]
    cases h0 : natDigits i.natAbs with
    | nil => exact absurd h0 (natDigits_ne_nil _)
    | cons c0 t0 =>
        show parseNumTail true (c0 :: t0) rest = some (.int i, rest)
        rw [parseNumTail_stop true (c0 :: t0) rest hrest, ← h0,
          digitsVal_natDigits]
        show some (PyNum.int (-(i.natAbs : Int)), rest) = some (.int i, rest)
        have hval : -(i.natAbs : Int) = i := by omega
        rw [hval]
  · obtain ⟨c0, t0, h0, hc0⟩ := natDigits_cons i.natAbs
    rw [intDigits, if_neg hneg, h0, List.cons_append, parseNum]
    rw [if_neg (isDigitCode_ne_minus hc0)]
    have hrun : takeDigits (c0 :: (t0 ++ rest)) = (c0 :: t0, rest) := by
      have := takeDigits_run (c0 :: t0)
        (by rw [← h0]; exact natDigits_digits _) rest hstop
      rwa [List.cons_append] at this
    rw [hrun]
    show parseNumTail false (c0 :: t0) rest = some (.int i, rest)
    rw [parseNumTail_stop false (c0 :: t0) rest hrest, ← h0,
      digitsVal_natDigits]
    show some (PyNum.int ((i.natAbs : Int)), rest) = some (.int i, rest)
    have hval : (i.natAbs : Int) = i := by omega
    rw [hval]

/-- Parsing a rendered float literal recovers its mantissa/exponent pair
whenever the continuation cannot extend the number match. -/
theorem parseNum_float (m e : Int) (rest : List Nat)
    (hrest : numStop rest = true) :
    parseNum (intDigits m ++ 0x65 :: (intDigits e ++ rest))
      = some (.float m e, rest) := by
  have hstop65 : takeDigits (0x65 :: (intDigits e ++ rest))
      = ([], 0x65 :: (intDigits e ++ rest)) :=
    takeDigits_cons_not 0x65 (by simp [isDigitCode]) _
  by_cases hneg : m < 0
  · rw [intDigits, if_pos hneg, List.cons_append, parseNum]
    rw [if_pos rfl]
    rw [takeDigits_run _ (natDigits_digits _) _ hstop65]
    cases h0 : natDigits m.natAbs with
    | nil => exact absurd h0 (natDigits_ne_nil _)
    | cons c0 t0 =>
        show parseNumTail true (c0 :: t0) (0x65 :: (intDigits e ++ rest))
          = some (.float m e, rest)
        rw [parseNumTail_exp true (c0 :: t0) e rest hrest, ← h0,
          digitsVal_natDigits]
        show some (PyNum.float (-(m.natAbs : Int)) e, rest)
          = some (.float m e, rest)
        have hval : -(m.natAbs : Int) = m := by omega
        rw [hval]
  · obtain ⟨c0, t0, h0, hc0⟩ := natDigits_cons m.natAbs
    rw [intDigits, if_neg hneg, h0, List.cons_append, parseNum]
    rw [if_neg (isDigitCode_ne_minus hc0)]
    have hrun : takeDigits (c0 :: (t0 ++ (0x65 :: (intDigits e ++ rest))))
        = (c0 :: t0, 0x65 :: (intDigits e ++ rest)) := by
      have := takeDigits_run (c0 :: t0)
        (by rw [← h0]; exact natDigits_digits _) _ hstop65
      rwa [List.cons_append] at this
    rw [hrun]
    show parseNumTail false (c0 :: t0) (0x65 :: (intDigits e ++ rest))
      = some (.float m e, rest)
    rw [parseNumTail_exp false (c0 :: t0) e rest hrest, ← h0,
      digitsVal_natDigits]
    show some (PyNum.float ((m.natAbs : Int)) e, rest) = some (.float m e, rest)
    have hval : (m.natAbs : Int) = m := by omega
    rw [hval]

theorem skipSpaces_not_ws (c : Nat)
    (h : ¬(c = 0x20 ∨ c = 0x9 ∨ c = 0xa ∨ c = 0xd)) (t : List Nat) :
    skipSpaces (c :: t) = c :: t := by
  rw [skipSpaces, if_neg h]

/-- Every rendered value opens with a character that is neither whitespace
nor a closing bracket/brace. -/
theorem renderVal_head (v : PyVal) :
    ∃ c t, renderVal v = c :: t
      ∧ ¬(c = 0x20 ∨ c = 0x9 ∨ c = 0xa ∨ c = 0xd)
      ∧ c ≠ 0x5d ∧ c ≠ 0x7d := by
  cases v with
  | null => exact ⟨0x6e, _, rfl, by norm_num, by norm_num, by norm_num⟩
  | bool b =>
      cases b with
      | false => exact ⟨0x66, _, rfl, by norm_num, by norm_num, by norm_num⟩
      | true => exact ⟨0x74, _, rfl, by norm_num, by norm_num, by norm_num⟩
  | int i =>
      by_cases hneg : i < 0
      · refine ⟨0x2d, natDigits i.natAbs, ?_, by norm_num, by norm_num,
          by norm_num⟩
        simp [renderVal, intDigits, hneg]
      · obtain ⟨c0, t0, h0, hc0⟩ := natDigits_cons i.natAbs
        have hb : 0x30 ≤ c0 ∧ c0 ≤ 0x39 := by
          simpa [isDigitCode] using hc0
        refine ⟨c0, t0, ?_, by omega, by omega, by omega⟩
        simp [renderVal, intDigits, hneg, h0]
  | float m e =>
      by_cases hneg : m < 0
      · refine ⟨0x2d, natDigits m.natAbs ++ (0x65 :: intDigits e), ?_,
          by norm_num, by norm_num, by norm_num⟩
        simp [renderVal, intDigits, hneg]
      · obtain ⟨c0, t0, h0, hc0⟩ := natDigits_cons m.natAbs
        have hb : 0x30 ≤ c0 ∧ c0 ≤ 0x39 := by
          simpa [isDigitCode] using hc0
        refine ⟨c0, t0 ++ (0x65 :: intDigits e), ?_, by omega, by omega,
          by omega⟩
        simp [renderVal, intDigits, hneg, h0]
  | str s => exact ⟨0x22, _, rfl, by norm_num, by norm_num, by norm_num⟩
  | arr xs => exact ⟨0x5b, _, rfl, by norm_num, by norm_num, by norm_num⟩
  | obj kvs => exact ⟨0x7b, _, rfl, by norm_num, by norm_num, by norm_num⟩

theorem skipSpaces_renderVal (v : PyVal) (x : List Nat) :
    skipSpaces (renderVal v ++ x) = renderVal v ++ x := by
  obtain ⟨c, t, h, hws, -, -⟩ := renderVal_head v
  rw [h, List.cons_append, skipSpaces_not_ws c hws]

theorem renderVal_length_pos (v : PyVal) : 0 < (renderVal v).length := by
  obtain ⟨c, t, h, -, -, -⟩ := renderVal_head v
  rw [h]
  simp

theorem skipSpaces_space (x : List Nat) :
    skipSpaces (0x20 :: x) = skipSpaces x := by
  rw [skipSpaces]
  norm_num

theorem parseVal_space (fuel : Nat) (x : List Nat) :
    parseVal fuel (0x20 :: x) = parseVal fuel x := by
  cases fuel with
  | zero => rfl
  | succ f =>
      rw [parseVal, parseVal, skipSpaces_space]

theorem parseElems_space (fuel : Nat) (x : List Nat) :
    parseElems fuel (0x20 :: x) = parseElems fuel x := by
  cases fuel with
  | zero => rfl
  | succ f =>
      rw [parseElems, parseElems, parseVal_space]

theorem parseMembers_space (fuel : Nat) (x : List Nat) :
    parseMembers fuel (0x20 :: x) = parseMembers fuel x := by
  cases fuel with
  | zero => rfl
  | succ f =>
      rw [parseMembers, parseMembers, skipSpaces_space]

/-- The value scanner at a digit or minus head falls through every keyword,
string, array and object pattern into the number branch. -/
theorem parseVal_num_head (fuel : Nat) (c : Nat) (r : List Nat)
    (hws : ¬(c = 0x20 ∨ c = 0x9 ∨ c = 0xa ∨ c = 0xd))
    (hn : c ≠ 0x6e) (ht : c ≠ 0x74) (hf : c ≠ 0x66) (hq : c ≠ 0x22)
    (hbk : c ≠ 0x5b) (hbc : c ≠ 0x7b)
    (hnum : c = 0x2d ∨ isDigitCode c = true) :
    parseVal (fuel + 1) (c :: r)
      = (parseNum (c :: r)).map (fun p => (pyNumVal p.1, p.2)) := by
  rw [parseVal, skipSpaces_not_ws c hws]
  simp [hn, ht, hf, hq, hbk, hbc, hnum]

/-- Rendered integers parse back through the number branch. -/
theorem parseVal_int (fuel : Nat) (i : Int) (rest : List Nat)
    (hrest : numStop rest = true) :
    parseVal (fuel + 1) (renderVal (.int i) ++ rest) = some (.int i, rest) := by
  have hnum := parseNum_intDigits i rest hrest
  by_cases hneg : i < 0
  · have harg : renderVal (.int i) ++ rest
        = 0x2d :: (natDigits i.natAbs ++ rest) := by
      simp [renderVal, intDigits, hneg]
    rw [harg, parseVal_num_head fuel 0x2d _ (by norm_num) (by norm_num)
      (by norm_num) (by norm_num) (by norm_num) (by norm_num) (by norm_num)
      (Or.inl rfl)]
    have harg2 : (0x2d : Nat) :: (natDigits i.natAbs ++ rest)
        = intDigits i ++ rest := by
      simp [intDigits, hneg]
    rw [harg2, hnum]
    rfl
  · obtain ⟨c0, t0, h0, hc0⟩ := natDigits_cons i.natAbs
    have hb : 0x30 ≤ c0 ∧ c0 ≤ 0x39 := by simpa [isDigitCode] using hc0
    have harg : renderVal (.int i) ++ rest = c0 :: (t0 ++ rest) := by
      simp [renderVal, intDigits, hneg, h0]
    rw [harg, parseVal_num_head fuel c0 _ (by omega) (by omega) (by omega)
      (by omega) (by omega) (by omega) (by omega) (Or.inr hc0)]
    have harg2 : c0 :: (t0 ++ rest) = intDigits i ++ rest := by
      simp [intDigits, hneg, h0]
    rw [harg2, hnum]
    rfl

/-- Rendered float literals parse back through the number branch. -/
theorem parseVal_float (fuel : Nat) (m e : Int) (rest : List Nat)
    (hrest : numStop rest = true) :
    parseVal (fuel + 1) (renderVal (.float m e) ++ rest)
      = some (.float m e, rest) := by
  have hnum := parseNum_float m e rest hrest
  by_cases hneg : m < 0
  · have harg : renderVal (.float m e) ++ rest
        = 0x2d :: (natDigits m.natAbs ++ (0x65 :: (intDigits e ++ rest))) := by
      simp [renderVal, intDigits, hneg]
    rw [harg, parseVal_num_head fuel 0x2d _ (by norm_num) (by norm_num)
      (by norm_num) (by norm_num) (by norm_num) (by norm_num) (by norm_num)
      (Or.inl rfl)]
    have harg2 : (0x2d : Nat) :: (natDigits m.natAbs ++ (0x65 :: (intDigits e ++ rest)))
        = intDigits m ++ 0x65 :: (intDigits e ++ rest) := by
      simp [intDigits, hneg]
    rw [harg2, hnum]
    rfl
  · obtain ⟨c0, t0, h0, hc0⟩ := natDigits_cons m.natAbs
    have hb : 0x30 ≤ c0 ∧ c0 ≤ 0x39 := by simpa [isDigitCode] using hc0
    have harg : renderVal (.float m e) ++ rest
        = c0 :: (t0 ++ (0x65 :: (intDigits e ++ rest))) := by
      simp [renderVal, intDigits, hneg, h0]
    rw [harg, parseVal_num_head fuel c0 _ (by omega) (by omega) (by omega)
      (by omega) (by omega) (by omega) (by omega) (Or.inr hc0)]
    have harg2 : c0 :: (t0 ++ (0x65 :: (intDigits e ++ rest)))
        = intDigits m ++ 0x65 :: (intDigits e ++ rest) := by
      simp [intDigits, hneg, h0]
    rw [harg2, hnum]
    rfl

/-- Rendered strings parse back through the string branch. -/
theorem parseVal_str (fuel : Nat) (s : List Nat) (hs : wfStr s = true)
    (rest : List Nat) :
    parseVal (fuel + 1) (renderVal (.str s) ++ rest) = some (.str s, rest) := by
  have harg : renderVal (.str s) ++ rest
      = 0x22 :: (s.flatMap escapeCode ++ (0x22 :: rest)) := by
    simp [renderVal, renderStr]
  rw [harg, parseVal, skipSpaces_not_ws _ (by norm_num)]
  show (parseStr (s.flatMap escapeCode ++ 0x22 :: rest)).map
      (fun p => (PyVal.str p.1, p.2)) = _
  rw [parseStr_render s hs]
  rfl

mutual
/-- Structural size used as the termination measure of the round-trip
induction. -/
def pySize : PyVal → Nat
  | .null => 1
  | .bool _ => 1
  | .int _ => 1
  | .float _ _ => 1
  | .str _ => 1
  | .arr xs => 1 + pyArrSize xs
  | .obj kvs => 1 + pyObjSize kvs
def pyArrSize : List PyVal → Nat
  | [] => 0
  | x :: xs => 1 + pySize x + pyArrSize xs
def pyObjSize : List (List Nat × PyVal) → Nat
  | [] => 0
  | (_, v) :: kvs => 1 + pySize v + pyObjSize kvs
end

theorem renderArrSep_cons (y : PyVal) (ys : List PyVal) :
    renderArrSep (y :: ys) = 0x2c :: 0x20 :: renderArr (y :: ys) := rfl

theorem renderObjSep_cons (k2 : List Nat) (v2 : PyVal)
    (kvs2 : List (List Nat × PyVal)) :
    renderObjSep ((k2, v2) :: kvs2) = 0x2c :: 0x20 :: renderObj ((k2, v2) :: kvs2) := rfl

theorem numStop_arrSep (xs : List PyVal) (rest : List Nat) :
    numStop (renderArrSep xs ++ 0x5d :: rest) = true := by
  cases xs <;> rfl

theorem numStop_objSep (kvs : List (List Nat × PyVal)) (rest : List Nat) :
    numStop (renderObjSep kvs ++ 0x7d :: rest) = true := by
  cases kvs with
  | nil => rfl
  | cons kv kvs2 => cases kv; rfl

/-- The value scanner on a rendered nonempty array reduces to wrapping the
element scanner: the first element's head closes no bracket. -/
theorem parseVal_arr_cons (fuel : Nat) (x : PyVal) (xs : List PyVal)
    (rest : List Nat) :
    parseVal (fuel + 1) (renderVal (.arr (x :: xs)) ++ rest)
      = (parseElems fuel (renderArr (x :: xs) ++ 0x5d :: rest)).map
          (fun p => (PyVal.arr p.1, p.2)) := by
  obtain ⟨c, t, h, hws, hbr, hbc⟩ := renderVal_head x
  have harg : renderVal (.arr (x :: xs)) ++ rest
      = 0x5b :: (renderArr (x :: xs) ++ 0x5d :: rest) := by
    simp [renderVal]
  have hcons : renderArr (x :: xs) ++ 0x5d :: rest
      = c :: (t ++ (renderArrSep xs ++ 0x5d :: rest)) := by
    simp [renderArr, h]
  have hskip : skipSpaces (renderArr (x :: xs) ++ 0x5d :: rest)
      = renderArr (x :: xs) ++ 0x5d :: rest := by
    rw [hcons]
    exact skipSpaces_not_ws c hws _
  rw [harg, parseVal, skipSpaces_not_ws _ (by norm_num)]
  show (match skipSpaces (renderArr (x :: xs) ++ 0x5d :: rest) with
        | [] => none
        | c2 :: r2 =>
            if c2 = 0x5d then some (PyVal.arr [], r2)
            else (parseElems fuel (c2 :: r2)).map
              (fun p : List PyVal × List Nat => (PyVal.arr p.1, p.2))) = _
  rw [hskip, hcons]
  show (if c = 0x5d then
          some (PyVal.arr [], t ++ (renderArrSep xs ++ 0x5d :: rest))
        else (parseElems fuel (c :: (t ++ (renderArrSep xs ++ 0x5d :: rest)))).map
          (fun p : List PyVal × List Nat => (PyVal.arr p.1, p.2))) = _
  rw [if_neg hbr, ← hcons]

/-- The value scanner on a rendered nonempty object reduces to wrapping the
member scanner: the first key opens with a quote. -/
theorem parseVal_obj_cons (fuel : Nat) (k : List Nat) (v : PyVal)
    (kvs : List (List Nat × PyVal)) (rest : List Nat) :
    parseVal (fuel + 1) (renderVal (.obj ((k, v) :: kvs)) ++ rest)
      = (parseMembers fuel (renderObj ((k, v) :: kvs) ++ 0x7d :: rest)).map
          (fun p => (PyVal.obj p.1, p.2)) := by
  have harg : renderVal (.obj ((k, v) :: kvs)) ++ rest
      = 0x7b :: (renderObj ((k, v) :: kvs) ++ 0x7d :: rest) := by
    simp [renderVal]
  have hcons : renderObj ((k, v) :: kvs) ++ 0x7d :: rest
      = 0x22 :: ((k.flatMap escapeCode ++ [0x22])
          ++ (0x3a :: 0x20 :: (renderVal v ++ renderObjSep kvs) ++ 0x7d :: rest)) := by
    simp [renderObj, renderStr]
  have hskip : skipSpaces (renderObj ((k, v) :: kvs) ++ 0x7d :: rest)
      = renderObj ((k, v) :: kvs) ++ 0x7d :: rest := by
    rw [hcons]
    exact skipSpaces_not_ws _ (by norm_num) _
  rw [harg, parseVal, skipSpaces_not_ws _ (by norm_num)]
  show (match skipSpaces (renderObj ((k, v) :: kvs) ++ 0x7d :: rest) with
        | [] => none
        | c2 :: r2 =>
            if c2 = 0x7d then some (PyVal.obj [], r2)
            else (parseMembers fuel (c2 :: r2)).map
              (fun p : List (List Nat × PyVal) × List Nat =>
                (PyVal.obj p.1, p.2))) = _
  rw [hskip, hcons]
  show (if (0x22 : Nat) = 0x7d then
          some (PyVal.obj [], (k.flatMap escapeCode ++ [0x22])
            ++ (0x3a :: 0x20 :: (renderVal v ++ renderObjSep kvs) ++ 0x7d :: rest))
        else (parseMembers fuel (0x22 :: ((k.flatMap escapeCode ++ [0x22])
            ++ (0x3a :: 0x20 :: (renderVal v ++ renderObjSep kvs)
              ++ 0x7d :: rest)))).map
          (fun p : List (List Nat × PyVal) × List Nat =>
            (PyVal.obj p.1, p.2))) = _
  rw [if_neg (by norm_num : ¬(0x22 : Nat) = 0x7d), ← hcons]

mutual
theorem rt_val : ∀ (v : PyVal) (fuel : Nat) (rest : List Nat),
    wfVal v = true → (renderVal v).length < fuel → numStop rest = true →
    parseVal fuel (renderVal v ++ rest) = some (v, rest)
  | .null, fuel, rest, _, hf, _ => by
      cases fuel with
      | zero => exact absurd hf (Nat.not_lt_zero _)
      | succ f => rfl
  | .bool true, fuel, rest, _, hf, _ => by
      cases fuel with
      | zero => exact absurd hf (Nat.not_lt_zero _)
      | succ f => rfl
  | .bool false, fuel, rest, _, hf, _ => by
      cases fuel with
      | zero => exact absurd hf (Nat.not_lt_zero _)
      | succ f => rfl
  | .int i, fuel, rest, _, hf, hr => by
      cases fuel with
      | zero => exact absurd hf (Nat.not_lt_zero _)
      | succ f => exact parseVal_int f i rest hr
  | .float m e, fuel, rest, _, hf, hr => by
      cases fuel with
      | zero => exact absurd hf (Nat.not_lt_zero _)
      | succ f => exact parseVal_float f m e rest hr
  | .str s, fuel, rest, hw, hf, _ => by
      cases fuel with
      | zero => exact absurd hf (Nat.not_lt_zero _)
      | succ f => exact parseVal_str f s (by simpa [wfVal] using hw) rest
  | .arr [], fuel, rest, _, hf, _ => by
      cases fuel with
      | zero => exact absurd hf (Nat.not_lt_zero _)
      | succ f => rfl
  | .arr (x :: xs), fuel, rest, hw, hf, _ => by
      cases fuel with
      | zero => exact absurd hf (Nat.not_lt_zero _)
      | succ f =>
          have hw' : wfArr (x :: xs) = true := by simpa [wfVal] using hw
          have hfe : (renderArr (x :: xs)).length + 1 < f := by
            simp only [renderVal, List.length_cons, List.length_append,
              List.length_singleton] at hf
            omega
          rw [parseVal_arr_cons f x xs rest, rt_elems x xs f rest hw' hfe]
          rfl
  | .obj [], fuel, rest, _, hf, _ => by
      cases fuel with
      | zero => exact absurd hf (Nat.not_lt_zero _)
      | succ f => rfl
  | .obj ((k, v) :: kvs), fuel, rest, hw, hf, _ => by
      cases fuel with
      | zero => exact absurd hf (Nat.not_lt_zero _)
      | succ f =>
          have hw' : wfObj ((k, v) :: kvs) = true := by
            simp only [wfVal, Bool.and_eq_true] at hw
            exact hw.1
          have hfm : (renderObj ((k, v) :: kvs)).length + 1 < f := by
            simp only [renderVal, List.length_cons, List.length_append,
              List.length_singleton] at hf
            omega
          rw [parseVal_obj_cons f k v kvs rest, rt_members k v kvs f rest hw' hfm]
          rfl
termination_by v _ _ _ _ _ => pySize v
decreasing_by all_goals (simp_wf; (try simp only [pySize, pyArrSize, pyObjSize]); omega)

theorem rt_elems : ∀ (x : PyVal) (xs : List PyVal) (fuel : Nat) (rest : List Nat),
    wfArr (x :: xs) = true → (renderArr (x :: xs)).length + 1 < fuel →
    parseElems fuel (renderArr (x :: xs) ++ 0x5d :: rest) = some (x :: xs, rest)
  | x, [], fuel, rest, hw, hf => by
      cases fuel with
      | zero => exact absurd hf (Nat.not_lt_zero _)
      | succ f =>
          have hx : wfVal x = true := by
            simp only [wfArr, Bool.and_eq_true] at hw
            exact hw.1
          have hlen : (renderVal x).length < f := by
            simp only [renderArr, renderArrSep, List.append_nil,
              List.length_append, List.length_nil] at hf
            omega
          have harg : renderArr (x :: []) ++ 0x5d :: rest
              = renderVal x ++ 0x5d :: rest := by
            simp [renderArr, renderArrSep]
          rw [parseElems, harg, rt_val x f (0x5d :: rest) hx hlen rfl]
          rfl
  | x, y :: ys, fuel, rest, hw, hf => by
      cases fuel with
      | zero => exact absurd hf (Nat.not_lt_zero _)
      | succ f =>
          simp only [wfArr, Bool.and_eq_true] at hw
          have hx : wfVal x = true := hw.1
          have hw' : wfArr (y :: ys) = true := by
            simp only [wfArr, Bool.and_eq_true]
            exact hw.2
          have hlen : (renderArr (x :: y :: ys)).length
              = (renderVal x).length + 2 + (renderArr (y :: ys)).length := by
            simp only [renderArr, renderArrSep_cons, List.length_append,
              List.length_cons]
            omega
          have hlx : (renderVal x).length < f := by omega
          have hly : (renderArr (y :: ys)).length + 1 < f := by omega
          have harg : renderArr (x :: y :: ys) ++ 0x5d :: rest
              = renderVal x ++ (0x2c :: 0x20 :: (renderArr (y :: ys) ++ 0x5d :: rest)) := by
            simp only [renderArr, renderArrSep_cons]
            simp [renderArr]
          rw [parseElems, harg,
            rt_val x f (0x2c :: 0x20 :: (renderArr (y :: ys) ++ 0x5d :: rest)) hx hlx rfl]
          show (parseElems f (0x20 :: (renderArr (y :: ys) ++ 0x5d :: rest))).map
              (fun p => (x :: p.1, p.2)) = _
          rw [parseElems_space, rt_elems y ys f rest hw' hly]
          rfl
termination_by x xs _ _ _ _ => pySize x + pyArrSize xs + 1
decreasing_by all_goals (simp_wf; (try simp only [pySize, pyArrSize, pyObjSize]); omega)

theorem rt_members : ∀ (k : List Nat) (v : PyVal)
    (kvs : List (List Nat × PyVal)) (fuel : Nat) (rest : List Nat),
    wfObj ((k, v) :: kvs) = true → (renderObj ((k, v) :: kvs)).length + 1 < fuel →
    parseMembers fuel (renderObj ((k, v) :: kvs) ++ 0x7d :: rest)
      = some ((k, v) :: kvs, rest)
  | k, v, [], fuel, rest, hw, hf => by
      cases fuel with
      | zero => exact absurd hf (Nat.not_lt_zero _)
      | succ f =>
          simp only [wfObj, Bool.and_eq_true] at hw
          have hk : wfStr k = true := hw.1.1
          have hv : wfVal v = true := hw.1.2
          have hlen : (renderObj ((k, v) :: [])).length
              = (renderStr k).length + 2 + (renderVal v).length := by
            simp only [renderObj, renderObjSep, List.append_nil,
              List.length_append, List.length_cons]
            omega
          have hlv : (renderVal v).length < f := by omega
          have harg : renderObj ((k, v) :: []) ++ 0x7d :: rest
              = 0x22 :: (k.flatMap escapeCode
                  ++ (0x22 :: (0x3a :: 0x20 :: (renderVal v
                      ++ 0x7d :: rest)))) := by
            simp [renderObj, renderObjSep, renderStr]
          rw [parseMembers, harg]
          show (match parseStr (k.flatMap escapeCode
              ++ 0x22 :: (0x3a :: 0x20 :: (renderVal v ++ 0x7d :: rest))) with
            | none => none
            | some (key, r1) =>
                match skipSpaces r1 with
                | 0x3a :: r2 =>
                    (match parseVal f r2 with
                     | none => none
                     | some (v2, r3) =>
                         match skipSpaces r3 with
                         | 0x2c :: r4 =>
                             (parseMembers f r4).map
                               (fun p : List (List Nat × PyVal) × List Nat =>
                                 ((key, v2) :: p.1, p.2))
                         | 0x7d :: r4 => some ([(key, v2)], r4)
                         | _ => none)
                | _ => none) = _
          rw [parseStr_render k hk]
          show (match parseVal f (0x20 :: (renderVal v ++ 0x7d :: rest)) with
            | none => none
            | some (v2, r3) =>
                match skipSpaces r3 with
                | 0x2c :: r4 =>
                    (parseMembers f r4).map
                      (fun p : List (List Nat × PyVal) × List Nat =>
                        ((k, v2) :: p.1, p.2))
                | 0x7d :: r4 => some ([(k, v2)], r4)
                | _ => none) = _
          rw [parseVal_space, rt_val v f (0x7d :: rest) hv hlv rfl]
          rfl
  | k, v, (k2, v2) :: kvs2, fuel, rest, hw, hf => by
      cases fuel with
      | zero => exact absurd hf (Nat.not_lt_zero _)
      | succ f =>
          simp only [wfObj, Bool.and_eq_true] at hw
          have hk : wfStr k = true := hw.1.1
          have hv : wfVal v = true := hw.1.2
          have hw2 : wfObj ((k2, v2) :: kvs2) = true := by
            simp only [wfObj, Bool.and_eq_true]
            exact hw.2
          have hsep : (renderObjSep ((k2, v2) :: kvs2)).length
              = (renderObj ((k2, v2) :: kvs2)).length + 2 := by
            rw [renderObjSep_cons]
            simp
          have hlen : (renderObj ((k, v) :: (k2, v2) :: kvs2)).length
              = (renderStr k).length + 2 + (renderVal v).length
                + (renderObjSep ((k2, v2) :: kvs2)).length := by
            simp only [renderObj, List.length_append, List.length_cons]
            omega
          have hlv : (renderVal v).length < f := by omega
          have hl2 : (renderObj ((k2, v2) :: kvs2)).length + 1 < f := by omega
          have harg : renderObj ((k, v) :: (k2, v2) :: kvs2) ++ 0x7d :: rest
              = 0x22 :: (k.flatMap escapeCode
                  ++ (0x22 :: (0x3a :: 0x20 :: (renderVal v
                      ++ (renderObjSep ((k2, v2) :: kvs2) ++ 0x7d :: rest))))) := by
            simp [renderObj, renderStr]
          rw [parseMembers, harg]
          show (match parseStr (k.flatMap escapeCode
              ++ 0x22 :: (0x3a :: 0x20 :: (renderVal v
                ++ (renderObjSep ((k2, v2) :: kvs2) ++ 0x7d :: rest)))) with
            | none => none
            | some (key, r1) =>
                match skipSpaces r1 with
                | 0x3a :: r2 =>
                    (match parseVal f r2 with
                     | none => none
                     | some (v2x, r3) =>
                         match skipSpaces r3 with
                         | 0x2c :: r4 =>
                             (parseMembers f r4).map
                               (fun p : List (List Nat × PyVal) × List Nat =>
                                 ((key, v2x) :: p.1, p.2))
                         | 0x7d :: r4 => some ([(key, v2x)], r4)
                         | _ => none)
                | _ => none) = _
          rw [parseStr_render k hk]
          show (match parseVal f (0x20 :: (renderVal v
              ++ (renderObjSep ((k2, v2) :: kvs2) ++ 0x7d :: rest))) with
            | none => none
            | some (v2x, r3) =>
                match skipSpaces r3 with
                | 0x2c :: r4 =>
                    (parseMembers f r4).map
                      (fun p : List (List Nat × PyVal) × List Nat =>
                        ((k, v2x) :: p.1, p.2))
                | 0x7d :: r4 => some ([(k, v2x)], r4)
                | _ => none) = _
          rw [parseVal_space,
            rt_val v f (renderObjSep ((k2, v2) :: kvs2) ++ 0x7d :: rest) hv hlv
              (numStop_objSep ((k2, v2) :: kvs2) rest)]
          show (parseMembers f (0x20 :: (renderObj ((k2, v2) :: kvs2)
              ++ 0x7d :: rest))).map
              (fun p : List (List Nat × PyVal) × List Nat =>
                ((k, v) :: p.1, p.2)) = _
          rw [parseMembers_space, rt_members k2 v2 kvs2 f rest hw2 hl2]
          rfl
termination_by _ v kvs _ _ _ => pySize v + pyObjSize kvs + 1
decreasing_by all_goals (simp_wf; (try simp only [pySize, pyArrSize, pyObjSize]); omega)
end

/-- C9: for every JSON-native value (null, booleans, integers, finite
floats as their shortest-repr decimals, scalar strings, arrays,
string-keyed dicts), decompress_response_data inverts
compress_response_data. -/
theorem compress_decompress_roundtrip (x : PyVal) (hx : wfVal x = true) :
    decompress_response_data (compress_response_data x) = some x := by
  have h := rt_val x ((renderVal x).length + 1) [] hx (by omega) rfl
  rw [List.append_nil] at h
  show loads (renderVal x) = some x
  rw [loads, h]
  rfl

/-- A sample payload touching every constructor, with a printable key, an
escaped-quote key, a negative number, floats 1.5, -0.25 and 0.0 in decimal
mantissa/exponent form, a non-ASCII character (é = 0xe9) and an astral code
point (0x1f600), nested arrays and objects. -/
def c9Sample : PyVal :=
  PyVal.obj
    [([0x61], PyVal.int 105),
     ([0x22, 0x62], PyVal.arr
        [PyVal.null, PyVal.bool true, PyVal.bool false, PyVal.int (-42),
         PyVal.float 15 (-1), PyVal.float (-25) (-2), PyVal.float 0 0,
         PyVal.str [0x68, 0xe9, 0x1f600, 0x9, 0x5c]]),
     ([0x63], PyVal.obj [([], PyVal.arr []), ([0x64], PyVal.obj [])])]

/-- Witness for C9 at the sample payload. -/
theorem compress_decompress_roundtrip_witness :
    decompress_response_data (compress_response_data c9Sample) = some c9Sample :=
  compress_decompress_roundtrip c9Sample (by decide)

end Finanzas
